import Mathlib

/-!
# Verification of the website-cloner pipeline

A shallow embedding of the repository's agent pipeline:
the orchestrator (`runAgent` in the unnamed graph/orchestrator module),
the four stage nodes (`scoutNode`, `architectNode`, `coderNode`, `qaNode`),
the Gemini fallback loops of the model gateway, the scout-data chunker
(`chunkScoutData`), the QA metric coercion (`getMetricValue`) and composite
scoring, and the SSE streaming route's poll loop.

Modelling conventions:
* JavaScript objects holding string-keyed files are association lists
  (`List (String × String)`), first-match lookup, assignment updates in
  place or appends (matching insertion-ordered JS objects).
* JS numbers are rationals (`ℚ`); `Math.round` is Mathlib's `round`
  (round half up, identical on the values at issue).
* External I/O (browser, LLM calls, Redis) is abstracted into oracle
  values passed in: each stage's LLM interaction collapses to an
  `Except String α` (an exception message, or the parsed payload).
  Redis writes are modelled by collecting the persisted states in a trace.
* Timestamps, screenshots and prompt text are omitted where no verified
  property depends on them; log strings are kept as fixed constants.
-/

/-! ## Data model (from src/lib/types.ts) -/

/-- Job lifecycle status (types.ts `AgentState.status`). -/
inductive Status where
  | pending | scouting | planning | coding | qa | complete | failed
deriving DecidableEq, Repr

/-- Pipeline node names (types.ts `AgentState.currentNode`). -/
inductive NodeName where
  | scout | architect | coder | qa
deriving DecidableEq, Repr

/-- One entry of `AgentState.errors` (timestamp omitted). -/
structure ErrorEntry where
  node : String
  error : String
deriving DecidableEq, Repr

/-- One entry of `AgentState.decisionLog` (timestamp omitted). -/
structure DecisionEntry where
  node : String
  decision : String
  reasoning : String
deriving DecidableEq, Repr

/-- One entry of `AgentState.attemptHistory` (timestamp omitted). -/
structure AttemptEntry where
  attempt : Nat
  qaScore : ℤ
  issues : List String
deriving DecidableEq, Repr

/-- types.ts `ComputedStyleData`: the fixed style record is modelled as a
property list; only the element's identity matters to the verified
properties. -/
structure ComputedStyleData where
  selector : String
  styles : List (String × String)
deriving DecidableEq, Repr

/-- types.ts `LayoutData`. -/
structure LayoutData where
  selector : String
  x : ℚ
  y : ℚ
  width : ℚ
  height : ℚ
  zIndex : ℤ
deriving DecidableEq, Repr

/-- types.ts `AnimationData` (property list telescoped to its key fields). -/
structure AnimationData where
  selector : String
  type : String
deriving DecidableEq, Repr

/-- types.ts `AssetData` (dimensions/format optional fields omitted). -/
structure AssetData where
  originalUrl : String
  localPath : String
deriving DecidableEq, Repr

/-- types.ts `ScoutOutput`; the DOM tree, breakpoints and meta fields are
omitted: no verified property reads them. -/
structure ScoutOutput where
  url : String
  computedStyles : List ComputedStyleData
  layout : List LayoutData
  assets : List AssetData
  animations : List AnimationData
deriving DecidableEq, Repr

/-- types.ts `ArchitectPlan`, reduced to the component list (the verified
properties only use the plan as an opaque success payload). -/
structure ArchitectPlan where
  components : List String
deriving DecidableEq, Repr

/-- types.ts `GeneratedCode`; `files` is an insertion-ordered JS object
modelled as an association list. `dependencies`/`packages` omitted. -/
structure GeneratedCode where
  files : List (String × String)
deriving DecidableEq, Repr

/-- One entry of `QAResult.issues`. -/
structure QAIssue where
  severity : String
  category : String
  description : String
  suggestion : String
deriving DecidableEq, Repr

/-- The four coerced sub-metric values attached to a `QAResult`. -/
structure QAMetrics where
  structuralSimilarity : ℚ
  visualSimilarity : ℚ
  layoutAccuracy : ℚ
  colorAccuracy : ℚ
deriving DecidableEq, Repr

/-- types.ts `QAResult` (screenshots omitted: opaque base64 strings). -/
structure QAResult where
  score : ℤ
  passed : Bool
  metrics : QAMetrics
  issues : List QAIssue
deriving DecidableEq, Repr

/-- types.ts `AgentState` (jobId, url, userInstructions and timestamps
omitted: constants of a run, read by no verified property). -/
structure AgentState where
  status : Status
  currentNode : Option NodeName
  scoutData : Option ScoutOutput
  architectPlan : Option ArchitectPlan
  generatedCode : Option GeneratedCode
  qaResult : Option QAResult
  retryCount : Nat
  maxRetries : Nat
  attemptHistory : List AttemptEntry
  decisionLog : List DecisionEntry
  errors : List ErrorEntry
deriving DecidableEq, Repr

/-- A `Partial<AgentState>` as returned by the stage nodes: each field is
`some v` when the partial update carries it, `none` when absent. -/
structure StateUpdate where
  status : Option Status := none
  currentNode : Option (Option NodeName) := none
  scoutData : Option ScoutOutput := none
  architectPlan : Option ArchitectPlan := none
  generatedCode : Option GeneratedCode := none
  qaResult : Option QAResult := none
  retryCount : Option Nat := none
  attemptHistory : Option (List AttemptEntry) := none
  decisionLog : Option (List DecisionEntry) := none
  errors : Option (List ErrorEntry) := none
deriving Repr

/-- JS object spread `{ ...state, ...update }`: fields present in the
update overwrite the state. -/
def merge (s : AgentState) (u : StateUpdate) : AgentState where
  status := u.status.getD s.status
  currentNode := u.currentNode.getD s.currentNode
  scoutData := u.scoutData.orElse (fun _ => s.scoutData)
  architectPlan := u.architectPlan.orElse (fun _ => s.architectPlan)
  generatedCode := u.generatedCode.orElse (fun _ => s.generatedCode)
  qaResult := u.qaResult.orElse (fun _ => s.qaResult)
  retryCount := u.retryCount.getD s.retryCount
  maxRetries := s.maxRetries
  attemptHistory := u.attemptHistory.getD s.attemptHistory
  decisionLog := u.decisionLog.getD s.decisionLog
  errors := u.errors.getD s.errors

/-! ## String helpers (JS `String.prototype.includes`, truthiness) -/

/-- Char-list membership of `needle` as a contiguous run of `hay`. -/
def charsContain (needle : List Char) : List Char → Bool
  | [] => needle.isEmpty
  | c :: t => needle.isPrefixOf (c :: t) || charsContain needle t

/-- JS `hay.includes(needle)`. -/
def strIncludes (hay needle : String) : Bool :=
  charsContain needle.data hay.data

/-- JS `s.toLowerCase()` (character-wise, kernel-computable). -/
def strToLower (s : String) : String := String.mk (s.data.map Char.toLower)

/-- JS `s.endsWith(suffix)` (kernel-computable). -/
def strEndsWith (s suffix : String) : Bool := suffix.data.isSuffixOf s.data

/-- JS truthiness of an optional string: `undefined` and `""` are falsy. -/
def jsTruthy : Option String → Option String
  | some s => if s = "" then none else some s
  | none => none

/-! ## Model gateway fallback (part_001 `callLLMWithFallback`,
coderNode.ts `callCoderLLMWithFallback`, qaNode.ts
`callVisionAPIWithFallback`, Gemini branches) -/

/-- part_001 line 8 / coderNode.ts line 8. -/
def GEMINI_FALLBACK_MODELS : List String :=
  ["gemini-2.5-pro", "gemini-2.5-flash", "gemini-pro-latest", "gemini-2.0-flash-001"]

/-- qaNode.ts line 10. -/
def GEMINI_VISION_FALLBACK_MODELS : List String :=
  ["gemini-2.5-pro", "gemini-2.5-flash", "gemini-pro-latest", "gemini-2.0-flash-001"]

/-- Quota / rate-limit classification:
`errorMsg.includes('429') || errorMsg.includes('quota')`. -/
def isQuotaError (msg : String) : Bool :=
  strIncludes msg "429" || strIncludes msg "quota"

/-- Token-limit classification: `errorMsg.includes('400') &&
(errorMsg.includes('token') || errorMsg.includes('exceeds') ||
errorMsg.includes('1048576'))`. -/
def isTokenLimitError (msg : String) : Bool :=
  strIncludes msg "400" &&
    (strIncludes msg "token" || strIncludes msg "exceeds" || strIncludes msg "1048576")

/-- The common shape of the three Gemini fallback loops: try candidates in
order; on an error whose message the `recoverable` classifier accepts,
continue with the next candidate; otherwise re-raise; when the candidate
list is exhausted raise the given `exhaustedMsg`. The per-candidate call
is abstracted into `oracle`. -/
def geminiFallbackLoop (recoverable : String → Bool) (exhaustedMsg : String)
    (oracle : String → Except String String) : List String → Except String String
  | [] => Except.error exhaustedMsg
  | m :: rest =>
    match oracle m with
    | Except.ok s => Except.ok s
    | Except.error msg =>
      if recoverable msg then geminiFallbackLoop recoverable exhaustedMsg oracle rest
      else Except.error msg

/-- part_001 lines 41-63 (architect text calls, Gemini branch): quota and
token-limit errors are both recoverable. -/
def callLLMWithFallbackGemini (oracle : String → Except String String) :
    Except String String :=
  geminiFallbackLoop (fun msg => isQuotaError msg || isTokenLimitError msg)
    "All Gemini models exceeded quota/token limits or unavailable"
    oracle GEMINI_FALLBACK_MODELS

/-- coderNode.ts lines 46-68 (coder text calls, Gemini branch): identical
classification to the architect loop. -/
def callCoderLLMWithFallbackGemini (oracle : String → Except String String) :
    Except String String :=
  geminiFallbackLoop (fun msg => isQuotaError msg || isTokenLimitError msg)
    "All Gemini models exceeded quota/token limits or unavailable"
    oracle GEMINI_FALLBACK_MODELS

/-- qaNode.ts lines 53-83 (vision calls, Gemini branch): ONLY quota errors
are recoverable; there is no token-limit check in this loop. -/
def callVisionAPIWithFallbackGemini (oracle : String → Except String String) :
    Except String String :=
  geminiFallbackLoop isQuotaError
    "All Gemini models exceeded quota or unavailable"
    oracle GEMINI_VISION_FALLBACK_MODELS

/-! ## Context chunker (part_001 `chunkScoutData`, lines 67-104) -/

/-- `Math.ceil(n / m)` on non-negative integers. -/
def ceilDiv (n m : Nat) : Nat := (n + m - 1) / m

/-- The payload of one chunk: a slice of one of the three flat lists. -/
inductive ChunkPayload where
  | styles (data : List ComputedStyleData)
  | layout (data : List LayoutData)
  | animations (data : List AnimationData)
deriving DecidableEq, Repr

/-- Number of elements inside a chunk payload. -/
def ChunkPayload.size : ChunkPayload → Nat
  | .styles l => l.length
  | .layout l => l.length
  | .animations l => l.length

/-- One element of the list returned by `chunkScoutData`. -/
structure Chunk where
  type : String
  data : ChunkPayload
  index : Nat
  total : Nat
deriving DecidableEq, Repr

/-- The slices `list.slice(i*chunkSize, (i+1)*chunkSize)` for
`i < Math.ceil(list.length / chunkSize)`. -/
def sliceChunks {α : Type} (l : List α) (chunkSize : Nat) : List (List α) :=
  (List.range (ceilDiv l.length chunkSize)).map
    (fun i => (l.drop (i * chunkSize)).take chunkSize)

/-- The chunk records for one typed list, mirroring one of the three
loops of `chunkScoutData`. -/
def typedChunks {α : Type} (ty : String) (inj : List α → ChunkPayload)
    (l : List α) (chunkSize : Nat) : List Chunk :=
  let total := ceilDiv l.length chunkSize
  (List.range total).map
    (fun i => { type := ty, data := inj ((l.drop (i * chunkSize)).take chunkSize),
                index := i, total := total })

/-- part_001 lines 67-104: partition styles, layout and animations
independently into chunks of `chunkSize`, concatenated in that order. -/
def chunkScoutData (scoutData : ScoutOutput) (chunkSize : Nat) : List Chunk :=
  typedChunks "styles" ChunkPayload.styles scoutData.computedStyles chunkSize ++
  typedChunks "layout" ChunkPayload.layout scoutData.layout chunkSize ++
  typedChunks "animations" ChunkPayload.animations scoutData.animations chunkSize

/-- part_001 line 162: `const maxChunksToProcess = 20`. -/
def maxChunksToProcess : Nat := 20

/-- part_001 lines 160-164: the architect chunks the scout data with
chunk size 300 and processes only `chunks.slice(0, maxChunksToProcess)`. -/
def architectChunksToProcess (scoutData : ScoutOutput) : List Chunk :=
  (chunkScoutData scoutData 300).take maxChunksToProcess

/-- part_001 lines 243-247: the aggregate statistics interpolated into the
final synthesis prompt (entry counts of the full lists, and asset count) —
the only representation of data beyond the chunk ceiling. -/
def architectFinalStats (scoutData : ScoutOutput) : Nat × Nat × Nat × Nat :=
  (scoutData.computedStyles.length, scoutData.layout.length,
   scoutData.animations.length, scoutData.assets.length)

/-! ## QA metric coercion and scoring (qaNode.ts lines 292-355) -/

/-- A JavaScript value as seen by `getMetricValue`: a number, a string, or
anything else (`typeof` neither `'number'` nor `'string'`). -/
inductive JSValue where
  | num (q : ℚ)
  | str (s : String)
  | other
deriving DecidableEq, Repr

/-- Value of a digit run (decimal), as `parseInt(digits, 10)`. -/
def digitsToNat (l : List Char) : Nat :=
  l.foldl (fun acc c => acc * 10 + (c.toNat - 48)) 0

/-- First maximal digit run embedded in a string, as matched by the regex
group in `value.match(/(\d+)/)`; `none` when the string has no digit. -/
def strFirstNat (s : String) : Option Nat :=
  match s.data.dropWhile (fun c => !c.isDigit) with
  | [] => none
  | c :: t => some (digitsToNat ((c :: t).takeWhile Char.isDigit))

/-- qaNode.ts lines 292-301 `getMetricValue`: numbers pass through,
strings yield their first embedded integer, everything else coerces
to 0 (with a diagnostic, not a failure). -/
def getMetricValue : JSValue → ℚ
  | JSValue.num q => q
  | JSValue.str s =>
    match strFirstNat s with
    | some n => (n : ℚ)
    | none => 0
  | JSValue.other => 0

/-- qaNode.ts lines 330-334: the weighted composite score
`0.4·structural + 0.3·visual + 0.2·layout + 0.1·color` (unrounded). -/
def compositeScore (m : QAMetrics) : ℚ :=
  m.structuralSimilarity * (4/10) + m.visualSimilarity * (3/10) +
  m.layoutAccuracy * (2/10) + m.colorAccuracy * (1/10)

/-- The raw `metrics` object of the parsed vision response. -/
structure RawMetrics where
  structuralSimilarity : JSValue
  visualSimilarity : JSValue
  layoutAccuracy : JSValue
  colorAccuracy : JSValue
deriving DecidableEq, Repr

/-- The parsed JSON of the vision response: an optional `metrics` object
and the issue list (`gptResult.issues || []` handled at use site). -/
structure GptResult where
  metrics : Option RawMetrics
  issues : List QAIssue
deriving DecidableEq, Repr

/-! ## Stage nodes -/

/-- The shared catch-block shape of all four nodes: a partial update
setting only `status: 'failed'` and `errors: [...state.errors, entry]`. -/
def failUpdate (node msg : String) (st : AgentState) : StateUpdate :=
  { status := some Status.failed,
    errors := some (st.errors ++ [{ node := node, error := msg }]) }

/-- coderNode.ts 553-568 region (scoutNode): the browser extraction is
abstracted as an oracle; on success the node attaches the snapshot and
advances, on an exception the catch block fails the stage. -/
def scoutNode (st : AgentState) (oracle : Except String ScoutOutput) : StateUpdate :=
  match oracle with
  | Except.error e => failUpdate "scout" e st
  | Except.ok out =>
    { scoutData := some out,
      status := some Status.planning,
      currentNode := some (some NodeName.architect),
      decisionLog := some (st.decisionLog ++
        [{ node := "scout", decision := "Completed website analysis",
           reasoning := "extracted elements, assets, animations" }]) }

/-- part_001 lines 133-344 (architectNode): when `state.scoutData` is
absent, `getScoutOverview(scoutData)` dereferences `undefined` and the
thrown TypeError is caught by the node's catch block; otherwise the whole
chunked LLM interaction plus JSON parse is abstracted as an oracle. -/
def architectNode (st : AgentState) (oracle : Except String ArchitectPlan) : StateUpdate :=
  match st.scoutData with
  | none => failUpdate "architect"
      "TypeError: Cannot read properties of undefined" st
  | some _ =>
    match oracle with
    | Except.error e => failUpdate "architect" e st
    | Except.ok plan =>
      { architectPlan := some plan,
        status := some Status.coding,
        currentNode := some (some NodeName.coder),
        decisionLog := some (st.decisionLog ++
          [{ node := "architect", decision := "Created component plan",
             reasoning := "designed components" }]) }

/-- First-match lookup in a JS object modelled as an association list. -/
def jsGet (files : List (String × String)) (k : String) : Option String :=
  (files.find? (fun p => p.1 = k)).map Prod.snd

/-- JS property assignment `files[k] = v`: update in place when the key
exists, append otherwise. -/
def jsSet (files : List (String × String)) (k v : String) : List (String × String) :=
  if files.any (fun p => p.1 = k) then
    files.map (fun p => if p.1 = k then (k, v) else p)
  else files ++ [(k, v)]

/-- coderNode.ts lines 146-170: resolve or install the `App.tsx` entry.
`appFile` is the first truthy of the four direct lookups, else the first
KEY whose lowercase form contains `"app.tsx"` (note: the key itself, not
its content). When no `appFile` exists, the first key containing `"app"`
or `"main"` or ending in `".tsx"` has its CONTENT copied to `App.tsx`;
with no such key the stage throws. When `appFile` exists and differs from
`files['App.tsx']`, `appFile` (content or key name) is assigned as the
content of `App.tsx`. -/
def resolveEntryAppFile (files : List (String × String)) : Option String :=
  (jsTruthy (jsGet files "App.tsx")).orElse fun _ =>
    (jsTruthy (jsGet files "/App.tsx")).orElse fun _ =>
    (jsTruthy (jsGet files "app.tsx")).orElse fun _ =>
    (jsTruthy (jsGet files "/app.tsx")).orElse fun _ =>
    jsTruthy ((files.map Prod.fst).find? (fun k => strIncludes (strToLower k) "app.tsx"))

/-- coderNode.ts lines 152-170: the branch on `appFile`. -/
def resolveEntry (files : List (String × String)) :
    Except String (List (String × String)) :=
  match resolveEntryAppFile files with
  | none =>
    match (files.map Prod.fst).find? (fun k =>
        strIncludes (strToLower k) "app" || strIncludes (strToLower k) "main" ||
        strEndsWith (strToLower k) ".tsx") with
    | some mainFile => Except.ok (jsSet files "App.tsx" ((jsGet files mainFile).getD ""))
    | none => Except.error "Generated code missing App.tsx"
  | some af =>
    if jsGet files "App.tsx" = some af then Except.ok files
    else Except.ok (jsSet files "App.tsx" af)

/-- coderNode.ts lines 71-205 (coderNode): with `state.scoutData` absent,
`scoutData.assets.map` throws and the catch block fails the stage; the
LLM call plus `match`/`JSON.parse` is abstracted as an oracle producing a
`GeneratedCode`; then the entry file is resolved or the stage fails. -/
def coderNode (st : AgentState) (oracle : Except String GeneratedCode) : StateUpdate :=
  match st.scoutData with
  | none => failUpdate "coder"
      "TypeError: Cannot read properties of undefined" st
  | some _ =>
    match oracle with
    | Except.error e => failUpdate "coder" e st
    | Except.ok gc =>
      match resolveEntry gc.files with
      | Except.error msg => failUpdate "coder" msg st
      | Except.ok files' =>
        { generatedCode := some { files := files' },
          status := some Status.qa,
          currentNode := some (some NodeName.qa),
          decisionLog := some (st.decisionLog ++
            [{ node := "coder",
               decision := if st.retryCount > 0 then "Regenerated code with fixes"
                           else "Generated initial code",
               reasoning := "created files" }]) }

/-- qaNode.ts lines 101-111: resolve the `App.tsx` content to render —
the three direct lookups (JS `||`, so empty strings are skipped), else
the first file VALUE containing `"export default"` or `"function App"`,
else `''` (which then throws). -/
def resolveAppContent (files : List (String × String)) : Option String :=
  (jsTruthy (jsGet files "App.tsx")).orElse fun _ =>
  (jsTruthy (jsGet files "/App.tsx")).orElse fun _ =>
  (jsTruthy (jsGet files "app.tsx")).orElse fun _ =>
  jsTruthy ((files.map Prod.snd).find? (fun v =>
    strIncludes v "export default" || strIncludes v "function App"))

/-- qaNode.ts lines 86-457 (qaNode): with `state.generatedCode` absent,
`generatedCode.files` throws; with no resolvable `App.tsx` content the
node throws; rendering, screenshots and the vision call plus JSON parse
are abstracted as an oracle; a response without a `metrics` field throws;
otherwise the four sub-metrics are coerced, the composite score computed,
and the node completes, schedules a retry, or completes with retries
exhausted. -/
def qaNode (st : AgentState) (oracle : Except String GptResult) : StateUpdate :=
  match st.generatedCode with
  | none => failUpdate "qa"
      "TypeError: Cannot read properties of undefined" st
  | some gc =>
    match resolveAppContent gc.files with
    | none => failUpdate "qa" "No App.tsx content found in generated code" st
    | some _ =>
      match oracle with
      | Except.error e => failUpdate "qa" e st
      | Except.ok g =>
        match g.metrics with
        | none => failUpdate "qa" "Vision API response missing metrics field" st
        | some m =>
          let structural := getMetricValue m.structuralSimilarity
          let visual := getMetricValue m.visualSimilarity
          let layout := getMetricValue m.layoutAccuracy
          let color := getMetricValue m.colorAccuracy
          let metrics : QAMetrics :=
            { structuralSimilarity := structural, visualSimilarity := visual,
              layoutAccuracy := layout, colorAccuracy := color }
          let comp := compositeScore metrics
          let qaResult : QAResult :=
            { score := round comp, passed := decide (comp ≥ 90),
              metrics := metrics, issues := g.issues }
          if qaResult.passed then
            { qaResult := some qaResult,
              status := some Status.complete,
              currentNode := some none,
              decisionLog := some (st.decisionLog ++
                [{ node := "qa", decision := "Validation passed",
                   reasoning := "score at or above threshold" }]) }
          else if st.retryCount < st.maxRetries then
            { qaResult := some qaResult,
              status := some Status.coding,
              currentNode := some (some NodeName.coder),
              retryCount := some (st.retryCount + 1),
              attemptHistory := some (st.attemptHistory ++
                [{ attempt := st.retryCount + 1, qaScore := qaResult.score,
                   issues := qaResult.issues.map QAIssue.description }]),
              decisionLog := some (st.decisionLog ++
                [{ node := "qa", decision := "Retrying with fixes",
                   reasoning := "score below threshold" }]) }
          else
            { qaResult := some qaResult,
              status := some Status.complete,
              currentNode := some none,
              decisionLog := some (st.decisionLog ++
                [{ node := "qa", decision := "Max retries exhausted",
                   reasoning := "final score below threshold" }]) }

/-! ## Orchestrator (part_000 `runAgent`, lines 72-179) -/

/-- The external nondeterminism of one job: the scout extraction, the
architect interaction, and one coder / one QA interaction per invocation
(indexed by the orchestrator's local retry counter). -/
structure Oracles where
  scout : Except String ScoutOutput
  architect : Except String ArchitectPlan
  coder : Nat → Except String GeneratedCode
  qa : Nat → Except String GptResult

/-- part_000 lines 75-87: the initial state (`status: 'pending'`,
`retryCount: 0`, `maxRetries: 3`, empty histories). -/
def initialState : AgentState :=
  { status := Status.pending, currentNode := none,
    scoutData := none, architectPlan := none,
    generatedCode := none, qaResult := none,
    retryCount := 0, maxRetries := 3,
    attemptHistory := [], decisionLog := [], errors := [] }

/-- One iteration of the retry loop's body (part_000 lines 133-147):
set the state's `retryCount` to the orchestrator's local counter, run the
coder, and — when the coder advanced to `qa` — run QA; returns the
post-iteration state and the states persisted during the iteration. -/
def retryIteration (o : Oracles) (st : AgentState) (lr : Nat) :
    AgentState × List AgentState :=
  let s1 := { st with retryCount := lr, status := Status.coding,
                      currentNode := some NodeName.coder }
  let s2 := merge s1 (coderNode s1 (o.coder lr))
  if s2.status = Status.qa then
    let s3 := { s2 with status := Status.qa, currentNode := some NodeName.qa }
    let s4 := merge s3 (qaNode s3 (o.qa lr))
    (s4, [s1, s2, s3, s4])
  else
    (s2, [s1, s2])

/-- part_000 lines 126-148, the retry loop, with an explicit fuel that the
caller sets to `maxRetries` (the loop's own guard `localRetry <
maxRetries` makes more fuel unreachable, since `maxRetries` is never
written by any update). Returns the post-loop state, the states persisted
inside the loop in order, and the number of loop iterations (= extra
coder invocations). -/
def retryLoop (o : Oracles) : Nat → AgentState → Nat →
    AgentState × List AgentState × Nat
  | 0, st, _ => (st, [], 0)
  | fuel + 1, st, localRetry =>
    if st.status = Status.coding ∧ st.retryCount < st.maxRetries ∧
        localRetry < st.maxRetries then
      let iter := retryIteration o st (localRetry + 1)
      let rest := retryLoop o fuel iter.1 (localRetry + 1)
      (rest.1, iter.2 ++ rest.2.1, rest.2.2 + 1)
    else (st, [], 0)

/-- The result of one orchestrated job: the returned final state, the
sequence of states persisted to the store (in write order), and the
total number of coder invocations. -/
structure RunResult where
  final : AgentState
  trace : List AgentState
  coderCalls : Nat

/-- part_000 line 99: the state persisted just before the scout runs. -/
def stScouting : AgentState :=
  { initialState with status := Status.scouting, currentNode := some NodeName.scout }

/-- part_000 line 102: the state after merging the scout's update. -/
def stAfterScout (o : Oracles) : AgentState :=
  merge stScouting (scoutNode stScouting o.scout)

/-- part_000 line 106: the state persisted just before the architect runs. -/
def stPlanning (o : Oracles) : AgentState :=
  { stAfterScout o with status := Status.planning,
                        currentNode := some NodeName.architect }

/-- part_000 line 109: the state after merging the architect's update. -/
def stAfterArchitect (o : Oracles) : AgentState :=
  merge (stPlanning o) (architectNode (stPlanning o) o.architect)

/-- part_000 line 113: the state persisted just before the coder runs. -/
def stCoding (o : Oracles) : AgentState :=
  { stAfterArchitect o with status := Status.coding,
                            currentNode := some NodeName.coder }

/-- part_000 line 116: the state after merging the coder's update. -/
def stAfterCoder (o : Oracles) : AgentState :=
  merge (stCoding o) (coderNode (stCoding o) (o.coder 0))

/-- part_000 line 120: the state persisted just before QA runs — set
unconditionally, even when the coder stage failed. -/
def stQa (o : Oracles) : AgentState :=
  { stAfterCoder o with status := Status.qa, currentNode := some NodeName.qa }

/-- part_000 line 123: the state after merging the QA update. -/
def stAfterQa (o : Oracles) : AgentState :=
  merge (stQa o) (qaNode (stQa o) (o.qa 0))

/-- part_000 lines 126-148: the retry loop run from the post-QA state. -/
def loopResult (o : Oracles) : AgentState × List AgentState × Nat :=
  retryLoop o (stAfterQa o).maxRetries (stAfterQa o) 0

/-- part_000 lines 150-153: any non-`failed` outcome is marked
`complete`. -/
def finalizedState (o : Oracles) : AgentState :=
  if (loopResult o).1.status ≠ Status.failed
  then { (loopResult o).1 with status := Status.complete }
  else (loopResult o).1

/-- part_000 lines 72-179 (`runAgent`): run scout, architect, coder and
QA in sequence — each preceded by an unconditional status/currentNode
write — then the retry loop, then mark any non-`failed` outcome
`complete`. Every intermediate state is persisted (collected in
`trace`). -/
def runAgent (o : Oracles) : RunResult :=
  { final := finalizedState o,
    trace := [initialState, stScouting, stAfterScout o, stPlanning o,
              stAfterArchitect o, stCoding o, stAfterCoder o, stQa o,
              stAfterQa o] ++ (loopResult o).2.1 ++ [finalizedState o],
    coderCalls := 1 + (loopResult o).2.2 }

/-! ## Streaming boundary (src/app/api/stream/route.ts `GET`) -/

/-- The typed events emitted on the SSE stream (payloads reduced to the
fields the verified properties inspect). -/
inductive StreamEvent where
  | statusEv (status : Status)
  | decisionEv (d : DecisionEntry)
  | errorEv (e : ErrorEntry)
  | qaIssueEv (description suggestion severity : String)
  | qaMetricsEv (score : ℤ) (metrics : QAMetrics) (passed : Bool)
  | progressEv (node : NodeName) (percent : Nat)
  | completeEv (code : GeneratedCode) (qaScore : ℤ)
deriving DecidableEq, Repr

/-- The poll-loop closure variables of the stream route (lines 16-21). -/
structure StreamObs where
  lastDecisionCount : Nat
  lastErrorCount : Nat
  lastStatus : Option Status
  lastProgress : Option Nat
  qaIssuesSent : Bool
  qaMetricsSent : Bool
deriving DecidableEq, Repr

/-- Initial observer state (`lastStatus = ''` modelled as `none`). -/
def initialObs : StreamObs :=
  { lastDecisionCount := 0, lastErrorCount := 0, lastStatus := none,
    lastProgress := none, qaIssuesSent := false, qaMetricsSent := false }

/-- route.ts lines 143-151: `progressMap` over `currentNode`. -/
def progressMap : NodeName → Nat
  | NodeName.scout => 25
  | NodeName.architect => 50
  | NodeName.coder => 75
  | NodeName.qa => 90

/-- JS falsiness of `lastProgress` (`null` or `0`). -/
def jsFalsyNat : Option Nat → Bool
  | none => true
  | some 0 => true
  | some _ => false

/-- The status gate shared by the qa_issue and qa_metrics emissions:
`state.status === 'qa' || state.status === 'complete' ||
state.status === 'coding'`. -/
def qaEmitStatusOk (s : Status) : Bool :=
  s = Status.qa || s = Status.complete || s = Status.coding

/-- route.ts lines 55-70: a `status` event on status change. -/
def statusEvents (obs : StreamObs) (st : AgentState) : List StreamEvent :=
  if obs.lastStatus ≠ some st.status then [StreamEvent.statusEv st.status] else []

/-- route.ts lines 73-86: one `decision` event per new decisionLog entry. -/
def decisionEvents (obs : StreamObs) (st : AgentState) : List StreamEvent :=
  if st.decisionLog.length > obs.lastDecisionCount
  then (st.decisionLog.drop obs.lastDecisionCount).map StreamEvent.decisionEv
  else []

/-- route.ts lines 89-102: one `error` event per new error entry. -/
def errorEvents (obs : StreamObs) (st : AgentState) : List StreamEvent :=
  if st.errors.length > obs.lastErrorCount
  then (st.errors.drop obs.lastErrorCount).map StreamEvent.errorEv
  else []

/-- route.ts lines 105-106: the guard of the `qa_issue` batch. -/
def qaIssueFire (obs : StreamObs) (st : AgentState) : Bool :=
  match st.qaResult with
  | some r => decide (r.issues ≠ []) && !obs.qaIssuesSent && qaEmitStatusOk st.status
  | none => false

/-- route.ts lines 107-115: the `qa_issue` batch (one event per issue). -/
def qaIssueEvents (obs : StreamObs) (st : AgentState) : List StreamEvent :=
  match st.qaResult with
  | some r =>
    if qaIssueFire obs st
    then r.issues.map (fun i => StreamEvent.qaIssueEv i.description i.suggestion
      (if i.severity = "" then "medium" else i.severity))
    else []
  | none => []

/-- route.ts line 122: the guard of the `qa_metrics` event. -/
def qaMetricsFire (obs : StreamObs) (st : AgentState) : Bool :=
  match st.qaResult with
  | some _ => !obs.qaMetricsSent && qaEmitStatusOk st.status
  | none => false

/-- route.ts lines 122-134: the single `qa_metrics` event. -/
def qaMetricsEvents (obs : StreamObs) (st : AgentState) : List StreamEvent :=
  match st.qaResult with
  | some r =>
    if qaMetricsFire obs st
    then [StreamEvent.qaMetricsEv r.score r.metrics r.passed] else []
  | none => []

/-- route.ts lines 137-140: the gating flags reset only while a fresh QA
run has status/currentNode `qa` and NO qaResult in state. -/
def qaFlagsReset (st : AgentState) : Prop :=
  st.currentNode = some NodeName.qa ∧ st.status = Status.qa ∧ st.qaResult = none

instance (st : AgentState) : Decidable (qaFlagsReset st) := by
  unfold qaFlagsReset; infer_instance

/-- route.ts lines 143-164: the `progress` event. -/
def progressEvents (obs : StreamObs) (st : AgentState) : List StreamEvent :=
  match st.currentNode with
  | some n =>
    let cur := progressMap n
    if jsFalsyNat obs.lastProgress || obs.lastProgress ≠ some cur
    then [StreamEvent.progressEv n cur] else []
  | none => []

/-- route.ts lines 167-176: the final `complete` event. -/
def completeEvents (st : AgentState) : List StreamEvent :=
  if st.status = Status.complete then
    match st.generatedCode with
    | some gc => [StreamEvent.completeEv gc ((st.qaResult.map QAResult.score).getD 0)]
    | none => []
  else []

/-- One iteration of the stream route's poll handler (route.ts lines
31-186) on a freshly read job state: returns the updated closure
variables, the events enqueued by this poll in order, and whether the
stream closed (terminal status). The wall-clock timeout branch is not
modelled (no real time in the embedding). -/
def pollStep (obs : StreamObs) (st : AgentState) :
    StreamObs × List StreamEvent × Bool :=
  ({ lastDecisionCount :=
       if st.decisionLog.length > obs.lastDecisionCount
       then st.decisionLog.length else obs.lastDecisionCount,
     lastErrorCount :=
       if st.errors.length > obs.lastErrorCount
       then st.errors.length else obs.lastErrorCount,
     lastStatus :=
       if obs.lastStatus ≠ some st.status then some st.status else obs.lastStatus,
     lastProgress :=
       match st.currentNode with
       | some n =>
         if jsFalsyNat obs.lastProgress || obs.lastProgress ≠ some (progressMap n)
         then some (progressMap n) else obs.lastProgress
       | none => obs.lastProgress,
     qaIssuesSent :=
       if qaFlagsReset st then false else obs.qaIssuesSent || qaIssueFire obs st,
     qaMetricsSent :=
       if qaFlagsReset st then false else obs.qaMetricsSent || qaMetricsFire obs st },
   statusEvents obs st ++ decisionEvents obs st ++ errorEvents obs st ++
     qaIssueEvents obs st ++ qaMetricsEvents obs st ++ progressEvents obs st ++
     completeEvents st,
   st.status = Status.complete ∨ st.status = Status.failed)

/-- Run the poll loop over a sequence of observed job states, stopping
after the first terminal state; returns the per-poll event lists. -/
def runStream (obs : StreamObs) : List AgentState → List (List StreamEvent)
  | [] => []
  | st :: rest =>
    let step := pollStep obs st
    if step.2.2 then [step.2.1]
    else step.2.1 :: runStream step.1 rest

/-- Is this event a `qa_metrics` event? -/
def isMetricEv : StreamEvent → Bool
  | StreamEvent.qaMetricsEv _ _ _ => true
  | _ => false

/-- Is this event a `qa_issue` event? -/
def isIssueEv : StreamEvent → Bool
  | StreamEvent.qaIssueEv _ _ _ => true
  | _ => false

/-- Number of `qa_metrics` events in a per-poll event list list. -/
def countQaMetrics (evss : List (List StreamEvent)) : Nat :=
  (evss.map (fun evs => (evs.filter isMetricEv).length)).sum

/-- Number of polls that emitted a (non-empty) `qa_issue` batch. -/
def countQaIssueBatches (evss : List (List StreamEvent)) : Nat :=
  (evss.filter (fun evs => evs.any isIssueEv)).length

/-! ## Concrete fixtures used in witnesses and counterexamples -/

/-- A minimal extraction snapshot. -/
def exampleScout : ScoutOutput :=
  { url := "https://example.com", computedStyles := [], layout := [],
    assets := [], animations := [] }

/-- A minimal component plan. -/
def examplePlan : ArchitectPlan := { components := ["Header"] }

/-- A generated-code payload whose `App.tsx` is directly present. -/
def exampleCode : GeneratedCode :=
  { files := [("App.tsx", "import React; export default function App()")] }

/-- One QA issue. -/
def exampleIssue : QAIssue :=
  { severity := "major", category := "layout",
    description := "Footer positioned incorrectly",
    suggestion := "Use sticky bottom positioning" }

/-- A vision response whose metrics all evaluate to 72. -/
def visionResp72 : GptResult :=
  { metrics := some
      { structuralSimilarity := JSValue.num 72, visualSimilarity := JSValue.num 72,
        layoutAccuracy := JSValue.num 72, colorAccuracy := JSValue.num 72 },
    issues := [exampleIssue] }

/-- A vision response whose metrics all evaluate to 95. -/
def visionResp95 : GptResult :=
  { metrics := some
      { structuralSimilarity := JSValue.num 95, visualSimilarity := JSValue.num 95,
        layoutAccuracy := JSValue.num 95, colorAccuracy := JSValue.num 95 },
    issues := [] }

/-- The §8 reference scenario: extraction and planning succeed, the first
coder+QA attempt scores 72 (below threshold), the second scores 95. -/
def happyRetryOracles : Oracles :=
  { scout := Except.ok exampleScout, architect := Except.ok examplePlan,
    coder := fun _ => Except.ok exampleCode,
    qa := fun n => if n = 0 then Except.ok visionResp72 else Except.ok visionResp95 }

/-- A run whose browser extraction throws a fatal infrastructure error. -/
def scoutFailureOracles : Oracles :=
  { scout := Except.error "browser crash", architect := Except.ok examplePlan,
    coder := fun _ => Except.ok exampleCode, qa := fun _ => Except.ok visionResp95 }

/-- A run whose coder response cannot be parsed as structured output. -/
def coderParseFailureOracles : Oracles :=
  { scout := Except.ok exampleScout, architect := Except.ok examplePlan,
    coder := fun _ => Except.error "Coder failed to return valid JSON",
    qa := fun _ => Except.ok visionResp95 }

/-- A state about to be validated (QA stage, code present). -/
def qaReadyState : AgentState :=
  { initialState with generatedCode := some exampleCode, status := Status.qa,
                      currentNode := some NodeName.qa }

/-- A vision response with sub-metrics 89, 90, 90, 90: the weighted
composite is 89.6 (rounding to 90 yet below the raw-pass threshold). -/
def visionResp896 : GptResult :=
  { metrics := some
      { structuralSimilarity := JSValue.num 89, visualSimilarity := JSValue.num 90,
        layoutAccuracy := JSValue.num 90, colorAccuracy := JSValue.num 90 },
    issues := [] }

/-- A per-candidate oracle whose first Gemini candidate fails with a
token-limit error and whose remaining candidates succeed. -/
def tokenLimitOracle : String → Except String String :=
  fun m => if m = "gemini-2.5-pro"
    then Except.error "400: input token count exceeds 1048576"
    else Except.ok "fallback answer"

/-! ## C8 — metric coercion -/

/-- C8: for every sub-metric value from the vision provider,
`getMetricValue` returns the value itself when it is a number, the first
embedded integer when it is a string containing digits (for example the
string "85%" yields 85), and 0 for every other value, without failing
the stage (the function is total). -/
theorem metric_coercion_cases :
    (∀ q : ℚ, getMetricValue (JSValue.num q) = q) ∧
    (∀ s n, strFirstNat s = some n → getMetricValue (JSValue.str s) = (n : ℚ)) ∧
    (∀ s, strFirstNat s = none → getMetricValue (JSValue.str s) = 0) ∧
    getMetricValue (JSValue.str "85%") = 85 ∧
    getMetricValue JSValue.other = 0 := by
  refine ⟨fun q => rfl, fun s n h => by simp [getMetricValue, h],
    fun s h => by simp [getMetricValue, h], by decide, rfl⟩

/-- Witness for `metric_coercion_cases` at the concrete inputs
`"85%"` (digit-bearing) and `"n/a"` (digit-free). -/
theorem metric_coercion_cases_witness :
    getMetricValue (JSValue.str "85%") = (85 : ℚ) ∧
    getMetricValue (JSValue.str "n/a") = 0 :=
  ⟨metric_coercion_cases.2.1 "85%" 85 (by decide),
   metric_coercion_cases.2.2.1 "n/a" (by decide)⟩


/-! ## C2 — composite score and pass decision -/

/-- The coerced metrics of `visionResp896`. -/
def metrics896 : QAMetrics :=
  { structuralSimilarity := 89, visualSimilarity := 90,
    layoutAccuracy := 90, colorAccuracy := 90 }

/-- The validation result the QA stage produces for `visionResp896`:
composite 89.6, rounded score 90, not passed. -/
def qaResult896 : QAResult :=
  { score := 90, passed := false, metrics := metrics896, issues := [] }

/-- Concrete evaluation of the QA stage on the 89/90/90/90 metrics. -/
theorem qaNode_concrete896 :
    (qaNode qaReadyState (Except.ok visionResp896)).qaResult = some qaResult896 := by
  have hres : resolveAppContent exampleCode.files =
      some "import React; export default function App()" := rfl
  have hlt2 : ¬(90 ≤ compositeScore { structuralSimilarity := 89, visualSimilarity := 90, layoutAccuracy := 90, colorAccuracy := 90 }) := by
    norm_num [compositeScore]
  have hround2 : round (compositeScore { structuralSimilarity := 89, visualSimilarity := 90, layoutAccuracy := 90, colorAccuracy := 90 }) = (90 : ℤ) := by
    norm_num [compositeScore, round_eq]
  have hbf : (decide (compositeScore { structuralSimilarity := 89, visualSimilarity := 90, layoutAccuracy := 90, colorAccuracy := 90 } ≥ 90)) = false :=
    decide_eq_false hlt2
  simp only [qaNode, qaReadyState, initialState, hres, visionResp896, getMetricValue]
  rw [hbf]
  simp only [Bool.false_eq_true, if_false]
  rw [if_pos (show (0:ℕ) < 3 by norm_num)]
  simp [qaResult896, metrics896, hround2, hbf]

/-- C2 counterexample: with sub-metrics 89, 90, 90, 90 the validator
attaches `score = 90` (the rounded composite, `round 89.6`) yet
`passed = false` — refuting "the result passes exactly when this
composite score (the rounded value) is at least 90": the code's pass
test `compositeScore >= 90` uses the unrounded weighted sum. -/
theorem qa_pass_not_rounded_counterexample :
    ((qaNode qaReadyState (Except.ok visionResp896)).qaResult.map
      (fun r => (r.score, r.passed))) = some ((90 : ℤ), false) := by
  rw [qaNode_concrete896]; rfl

/-- C2 amended: every `ValidationResult` the QA stage attaches carries
`score = round(0.4·structural + 0.3·visual + 0.2·layout + 0.1·color)`
over its own coerced metrics, and passes exactly when the UNROUNDED
weighted composite is at least 90 (so a result can carry score 90 and
still not pass). -/
theorem qa_score_round_and_raw_pass (st : AgentState)
    (o : Except String GptResult) (r : QAResult)
    (h : (qaNode st o).qaResult = some r) :
    r.score = round (compositeScore r.metrics) ∧
    (r.passed = true ↔ compositeScore r.metrics ≥ 90) := by
  simp only [qaNode] at h
  split at h
  · simp [failUpdate] at h
  split at h
  · simp [failUpdate] at h
  split at h
  · simp [failUpdate] at h
  split at h
  · simp [failUpdate] at h
  split at h <;> [skip; split at h] <;>
    (simp only [Option.some.injEq] at h; subst h;
     refine ⟨rfl, by simp⟩)

/-- Witness for `qa_score_round_and_raw_pass` at the concrete
89/90/90/90 validation run. -/
theorem qa_score_round_and_raw_pass_witness :
    qaResult896.score = round (compositeScore qaResult896.metrics) ∧
    (qaResult896.passed = true ↔ compositeScore qaResult896.metrics ≥ 90) :=
  qa_score_round_and_raw_pass qaReadyState (Except.ok visionResp896)
    qaResult896 qaNode_concrete896

/-! ## C6 — gateway fallback and error classification -/

/-- C6 counterexample: a token-limit error on the first candidate. The
text gateway (`callLLMWithFallback`) skips to the next candidate and
succeeds; the paired-image vision gateway (`callVisionAPIWithFallback`)
aborts immediately and propagates the very same error — refuting the
claim that the vision capability also skips on input-size/token-limit
errors. -/
theorem vision_token_limit_counterexample :
    callLLMWithFallbackGemini tokenLimitOracle = Except.ok "fallback answer" ∧
    callVisionAPIWithFallbackGemini tokenLimitOracle =
      Except.error "400: input token count exceeds 1048576" ∧
    isTokenLimitError "400: input token count exceeds 1048576" = true ∧
    isQuotaError "400: input token count exceeds 1048576" = false := by
  refine ⟨rfl, rfl, rfl, rfl⟩

/-- C6 amended: all three Gemini fallback loops try their candidates in
fixed order; a recoverable error (for the text loops: quota/rate-limit
OR token-limit; for the vision loop: quota/rate-limit ONLY) skips to
the next candidate; any other error — including, for the vision loop, a
token-limit error — aborts immediately and propagates; and exhausting
every candidate raises the single all-candidates-exhausted failure. -/
theorem gateway_fallback_classification :
    (∀ recov ex o s (m : String) rest, o m = Except.ok s →
        geminiFallbackLoop recov ex o (m :: rest) = Except.ok s) ∧
    (∀ recov ex o msg (m : String) rest, o m = Except.error msg → recov msg = true →
        geminiFallbackLoop recov ex o (m :: rest) = geminiFallbackLoop recov ex o rest) ∧
    (∀ recov ex o msg (m : String) rest, o m = Except.error msg → recov msg = false →
        geminiFallbackLoop recov ex o (m :: rest) = Except.error msg) ∧
    (∀ recov ex (o : String → Except String String) models,
        (∀ m ∈ models, ∃ msg, o m = Except.error msg ∧ recov msg = true) →
        geminiFallbackLoop recov ex o models = Except.error ex) ∧
    (∀ o, callLLMWithFallbackGemini o =
        geminiFallbackLoop (fun msg => isQuotaError msg || isTokenLimitError msg)
          "All Gemini models exceeded quota/token limits or unavailable"
          o GEMINI_FALLBACK_MODELS) ∧
    (∀ o, callCoderLLMWithFallbackGemini o =
        geminiFallbackLoop (fun msg => isQuotaError msg || isTokenLimitError msg)
          "All Gemini models exceeded quota/token limits or unavailable"
          o GEMINI_FALLBACK_MODELS) ∧
    (∀ o, callVisionAPIWithFallbackGemini o =
        geminiFallbackLoop isQuotaError
          "All Gemini models exceeded quota or unavailable"
          o GEMINI_VISION_FALLBACK_MODELS) := by
  refine ⟨?_, ?_, ?_, ?_, fun _ => rfl, fun _ => rfl, fun _ => rfl⟩
  · intro recov ex o s m rest h
    simp [geminiFallbackLoop, h]
  · intro recov ex o msg m rest h hr
    simp [geminiFallbackLoop, h, hr]
  · intro recov ex o msg m rest h hr
    simp [geminiFallbackLoop, h, hr]
  · intro recov ex o models hall
    induction models with
    | nil => simp [geminiFallbackLoop]
    | cons m rest ih =>
      obtain ⟨msg, hm, hr⟩ := hall m (List.mem_cons_self m rest)
      simp only [geminiFallbackLoop, hm, hr, if_pos]
      exact ih (fun x hx => hall x (List.mem_cons_of_mem m hx))

/-- Witness for `gateway_fallback_classification`: concrete skip,
abort, and exhaustion instances. -/
theorem gateway_fallback_classification_witness :
    geminiFallbackLoop isQuotaError "exhausted"
      (fun _ => Except.error "quota") ["a", "b"] = Except.error "exhausted" ∧
    geminiFallbackLoop isQuotaError "exhausted"
      (fun _ => Except.error "boom") ["a", "b"] = Except.error "boom" :=
  ⟨gateway_fallback_classification.2.2.2.1 isQuotaError "exhausted"
      (fun _ => Except.error "quota") ["a", "b"]
      (fun m _ => ⟨"quota", rfl, rfl⟩),
   gateway_fallback_classification.2.2.1 isQuotaError "exhausted"
      (fun _ => Except.error "boom") "boom" "a" ["b"] rfl rfl⟩

/-! ## C7 — chunk partitioning and the architect chunk ceiling -/

/-- `Math.ceil(0 / cs) = 0`. -/
lemma ceilDiv_zero_left {cs : Nat} (hcs : 0 < cs) : ceilDiv 0 cs = 0 := by
  unfold ceilDiv
  have h : cs - 1 < cs := by omega
  simpa using Nat.div_eq_of_lt h

/-- Ceiling division of a positive numerator, in floor-division form. -/
lemma ceilDiv_succ_eq {cs n : Nat} (hcs : 0 < cs) (hn : 0 < n) :
    ceilDiv n cs = (n - 1) / cs + 1 := by
  unfold ceilDiv
  have h : n + cs - 1 = (n - 1) + cs := by omega
  rw [h, Nat.add_div_right _ hcs]

/-- Removing one chunk-worth of elements removes exactly one chunk. -/
lemma ceilDiv_drop {cs n : Nat} (hcs : 0 < cs) (hn : 0 < n) :
    ceilDiv (n - cs) cs + 1 = ceilDiv n cs := by
  rcases le_or_lt n cs with hle | hlt
  · have h1 : n - cs = 0 := by omega
    rw [h1, ceilDiv_zero_left hcs, ceilDiv_succ_eq hcs hn]
    have h2 : (n - 1) / cs = 0 := Nat.div_eq_of_lt (by omega)
    omega
  · rw [ceilDiv_succ_eq hcs hn, ceilDiv_succ_eq hcs (by omega : 0 < n - cs)]
    have h2 : n - 1 = (n - cs - 1) + cs := by omega
    rw [h2, Nat.add_div_right _ hcs]

/-- The slices cover the list exactly, in order. -/
lemma sliceChunks_join {α : Type} {cs : Nat} (hcs : 0 < cs) (l : List α) :
    (sliceChunks l cs).flatten = l := by
  generalize hn : ceilDiv l.length cs = n
  induction n generalizing l with
  | zero =>
    have hlen : l.length = 0 := by
      by_contra h
      rw [ceilDiv_succ_eq hcs (Nat.pos_of_ne_zero h)] at hn
      exact Nat.succ_ne_zero _ hn
    have h0 : l = [] := List.length_eq_zero.mp hlen
    subst h0
    simp [sliceChunks, ceilDiv_zero_left hcs]
  | succ n ih =>
    have hlen : 0 < l.length := by
      by_contra h
      push_neg at h
      have h0 : l.length = 0 := by omega
      rw [h0, ceilDiv_zero_left hcs] at hn
      exact Nat.succ_ne_zero n hn.symm
    unfold sliceChunks
    rw [hn, List.range_succ_eq_map]
    simp only [List.map_cons, List.flatten_cons, List.map_map]
    have harg : ceilDiv (l.drop cs).length cs = n := by
      rw [List.length_drop]
      have := ceilDiv_drop hcs hlen
      omega
    have hmap : (List.range n).map
        ((fun i => (l.drop (i * cs)).take cs) ∘ Nat.succ) =
        sliceChunks (l.drop cs) cs := by
      unfold sliceChunks
      rw [harg]
      refine List.map_congr_left (fun i _ => ?_)
      simp only [Function.comp_apply, Nat.succ_mul, List.drop_drop]
      rw [Nat.add_comm]
    rw [hmap, ih (l.drop cs) harg]
    simp [List.take_append_drop]

/-- Styles carried by a chunk payload. -/
def ChunkPayload.stylesList : ChunkPayload → List ComputedStyleData
  | ChunkPayload.styles l => l
  | _ => []

/-- Layout entries carried by a chunk payload. -/
def ChunkPayload.layoutList : ChunkPayload → List LayoutData
  | ChunkPayload.layout l => l
  | _ => []

/-- Animation entries carried by a chunk payload. -/
def ChunkPayload.animationsList : ChunkPayload → List AnimationData
  | ChunkPayload.animations l => l
  | _ => []

/-- Filtering one typed section by its own type keeps every chunk. -/
lemma typedChunks_filter_self {α : Type} (ty : String) (inj : List α → ChunkPayload)
    (l : List α) (cs : Nat) :
    (typedChunks ty inj l cs).filter (fun c => c.type == ty) = typedChunks ty inj l cs := by
  refine List.filter_eq_self.mpr (fun c hc => ?_)
  simp only [typedChunks, List.mem_map, List.mem_range] at hc
  obtain ⟨i, _, rfl⟩ := hc
  simp

/-- Filtering one typed section by a different type keeps nothing. -/
lemma typedChunks_filter_ne {α : Type} {ty ty' : String} (h : ty ≠ ty')
    (inj : List α → ChunkPayload) (l : List α) (cs : Nat) :
    (typedChunks ty inj l cs).filter (fun c => c.type == ty') = [] := by
  refine List.filter_eq_nil.mpr (fun c hc => ?_)
  simp only [typedChunks, List.mem_map, List.mem_range] at hc
  obtain ⟨i, _, rfl⟩ := hc
  simp [h]

/-- A typed section holds `ceil(length / chunkSize)` chunks. -/
lemma typedChunks_length {α : Type} (ty : String) (inj : List α → ChunkPayload)
    (l : List α) (cs : Nat) :
    (typedChunks ty inj l cs).length = ceilDiv l.length cs := by
  simp [typedChunks]

/-- Projecting one typed section back to its payloads recovers the list. -/
lemma typedChunks_map_proj {α : Type} {cs : Nat} (hcs : 0 < cs)
    (ty : String) (inj : List α → ChunkPayload) (proj : ChunkPayload → List α)
    (hpi : ∀ x, proj (inj x) = x) (l : List α) :
    ((typedChunks ty inj l cs).map (fun c => proj c.data)).flatten = l := by
  have hmap : (typedChunks ty inj l cs).map (fun c => proj c.data) = sliceChunks l cs := by
    simp only [typedChunks, sliceChunks, List.map_map]
    exact List.map_congr_left (fun i _ => hpi _)
  rw [hmap, sliceChunks_join hcs]

/-- Every chunk of a typed section holds at most `chunkSize` elements. -/
lemma typedChunks_size {α : Type} {cs : Nat} (ty : String) (inj : List α → ChunkPayload)
    (hsize : ∀ x, (inj x).size = x.length) (l : List α) :
    ∀ c ∈ typedChunks ty inj l cs, c.data.size ≤ cs := by
  intro c hc
  simp only [typedChunks, List.mem_map, List.mem_range] at hc
  obtain ⟨i, _, rfl⟩ := hc
  simp only [hsize]
  simp [List.length_take]

/-- C7: `chunkScoutData` partitions the snapshot's `computedStyles`,
`layout` and `animations` lists independently into chunks of at most
`chunkSize` elements — `ceil(n/chunkSize)` chunks per list, in original
element order, every element in exactly one chunk (the typed sections
flatten back to the original lists) — and the architect processes only
`chunks.slice(0, 20)`, at most `maxChunksToProcess = 20` chunks per job;
data beyond that ceiling appears in the final synthesis prompt only via
the aggregate statistics `architectFinalStats`. -/
theorem chunker_partition_and_ceiling (sd : ScoutOutput) (cs : Nat) (hcs : 0 < cs) :
    (((chunkScoutData sd cs).filter (fun c => c.type == "styles")).map
        (fun c => c.data.stylesList)).flatten = sd.computedStyles ∧
    (((chunkScoutData sd cs).filter (fun c => c.type == "layout")).map
        (fun c => c.data.layoutList)).flatten = sd.layout ∧
    (((chunkScoutData sd cs).filter (fun c => c.type == "animations")).map
        (fun c => c.data.animationsList)).flatten = sd.animations ∧
    ((chunkScoutData sd cs).filter (fun c => c.type == "styles")).length
      = ceilDiv sd.computedStyles.length cs ∧
    ((chunkScoutData sd cs).filter (fun c => c.type == "layout")).length
      = ceilDiv sd.layout.length cs ∧
    ((chunkScoutData sd cs).filter (fun c => c.type == "animations")).length
      = ceilDiv sd.animations.length cs ∧
    (∀ c ∈ chunkScoutData sd cs, c.data.size ≤ cs) ∧
    (architectChunksToProcess sd).length ≤ maxChunksToProcess ∧
    architectChunksToProcess sd = (chunkScoutData sd 300).take maxChunksToProcess := by
  unfold chunkScoutData
  simp only [List.filter_append, List.length_append,
    typedChunks_filter_self,
    typedChunks_filter_ne (by decide : ("styles" : String) ≠ "layout"),
    typedChunks_filter_ne (by decide : ("styles" : String) ≠ "animations"),
    typedChunks_filter_ne (by decide : ("layout" : String) ≠ "styles"),
    typedChunks_filter_ne (by decide : ("layout" : String) ≠ "animations"),
    typedChunks_filter_ne (by decide : ("animations" : String) ≠ "styles"),
    typedChunks_filter_ne (by decide : ("animations" : String) ≠ "layout"),
    List.append_nil, List.nil_append, List.length_nil]
  refine ⟨?_, ?_, ?_, ?_, ?_, ?_, ?_, ?_, rfl⟩
  · exact typedChunks_map_proj hcs "styles" ChunkPayload.styles
      ChunkPayload.stylesList (fun x => rfl) _
  · exact typedChunks_map_proj hcs "layout" ChunkPayload.layout
      ChunkPayload.layoutList (fun x => rfl) _
  · exact typedChunks_map_proj hcs "animations" ChunkPayload.animations
      ChunkPayload.animationsList (fun x => rfl) _
  · simp [typedChunks_length]
  · simp [typedChunks_length]
  · simp [typedChunks_length]
  · intro c hc
    rcases List.mem_append.mp hc with hc' | hc'
    · rcases List.mem_append.mp hc' with hc'' | hc''
      · exact typedChunks_size "styles" ChunkPayload.styles (fun x => rfl) _ c hc''
      · exact typedChunks_size "layout" ChunkPayload.layout (fun x => rfl) _ c hc''
    · exact typedChunks_size "animations" ChunkPayload.animations (fun x => rfl) _ c hc'
  · unfold architectChunksToProcess
    simp [List.length_take]

/-- A two-element snapshot used to witness the chunker theorem. -/
def chunkDemoScout : ScoutOutput :=
  { url := "https://example.com",
    computedStyles := [{ selector := "a", styles := [] },
                       { selector := "b", styles := [] }],
    layout := [], assets := [], animations := [] }

/-- Witness for `chunker_partition_and_ceiling` at a concrete
two-element snapshot with chunk size 1. -/
theorem chunker_partition_and_ceiling_witness :
    (((chunkScoutData chunkDemoScout 1).filter (fun c => c.type == "styles")).map
        (fun c => c.data.stylesList)).flatten = chunkDemoScout.computedStyles ∧
    (∀ c ∈ chunkScoutData chunkDemoScout 1, c.data.size ≤ 1) :=
  ⟨(chunker_partition_and_ceiling chunkDemoScout 1 (by norm_num)).1,
   (chunker_partition_and_ceiling chunkDemoScout 1 (by norm_num)).2.2.2.2.2.2.1⟩

/-! ## C10 — failing stages touch only status and errors -/

/-- Merging a catch-block update: only `status` and `errors` change, and
exactly one error entry is appended. -/
lemma merge_failUpdate (st : AgentState) (n m : String) :
    merge st (failUpdate n m st) =
      { st with status := Status.failed,
                errors := st.errors ++ [{ node := n, error := m }] } := rfl

/-- A failed scout update is exactly a catch-block update. -/
lemma scoutNode_failed_eq (st : AgentState) (o : Except String ScoutOutput)
    (h : (scoutNode st o).status = some Status.failed) :
    ∃ n m, scoutNode st o = failUpdate n m st := by
  rcases o with e | out
  · exact ⟨"scout", e, rfl⟩
  · simp [scoutNode] at h

/-- A failed architect update is exactly a catch-block update. -/
lemma architectNode_failed_eq (st : AgentState) (o : Except String ArchitectPlan)
    (h : (architectNode st o).status = some Status.failed) :
    ∃ n m, architectNode st o = failUpdate n m st := by
  unfold architectNode at h ⊢
  split at h
  next heq => exact ⟨_, _, rfl⟩
  next sd heq =>
    rcases o with e | plan
    · exact ⟨_, _, rfl⟩
    · simp at h

/-- A failed coder update is exactly a catch-block update. -/
lemma coderNode_failed_eq (st : AgentState) (o : Except String GeneratedCode)
    (h : (coderNode st o).status = some Status.failed) :
    ∃ n m, coderNode st o = failUpdate n m st := by
  unfold coderNode at h ⊢
  split at h
  next heq => exact ⟨_, _, rfl⟩
  next sd heq =>
    rcases o with e | gc
    · exact ⟨_, _, rfl⟩
    · rcases hre : resolveEntry gc.files with msg | files'
      · exact ⟨"coder", msg, by simp only [hre]⟩
      · simp only [hre] at h
        simp at h

/-- A failed QA update is exactly a catch-block update. -/
lemma qaNode_failed_eq (st : AgentState) (o : Except String GptResult)
    (h : (qaNode st o).status = some Status.failed) :
    ∃ n m, qaNode st o = failUpdate n m st := by
  unfold qaNode at h ⊢
  split at h
  next heq => exact ⟨_, _, rfl⟩
  next gc heq =>
    rcases hac : resolveAppContent gc.files with _ | app
    · exact ⟨"qa", "No App.tsx content found in generated code", by simp only [hac]⟩
    · simp only [hac] at h
      rcases o with e | g
      · exact ⟨"qa", e, by simp only [hac]⟩
      · rcases hm : g.metrics with _ | m
        · exact ⟨"qa", "Vision API response missing metrics field", by simp only [hac, hm]⟩
        · simp only [hm] at h
          split at h <;> [skip; split at h] <;> simp at h

/-- C10: whenever any stage (scout, architect, coder, or qa) fails, the
partial update it returns changes only the `status` field (to `failed`)
and appends exactly one entry to the error list; after the orchestrator
merges that update, every other JobState field — scoutData,
architectPlan, generatedCode, qaResult, retryCount, attemptHistory and
decisionLog — is unchanged from its value before the failing stage ran. -/
theorem stage_failure_frame :
    (∀ st o, (scoutNode st o).status = some Status.failed →
      ∃ e, merge st (scoutNode st o) =
        { st with status := Status.failed, errors := st.errors ++ [e] }) ∧
    (∀ st o, (architectNode st o).status = some Status.failed →
      ∃ e, merge st (architectNode st o) =
        { st with status := Status.failed, errors := st.errors ++ [e] }) ∧
    (∀ st o, (coderNode st o).status = some Status.failed →
      ∃ e, merge st (coderNode st o) =
        { st with status := Status.failed, errors := st.errors ++ [e] }) ∧
    (∀ st o, (qaNode st o).status = some Status.failed →
      ∃ e, merge st (qaNode st o) =
        { st with status := Status.failed, errors := st.errors ++ [e] }) := by
  refine ⟨fun st o h => ?_, fun st o h => ?_, fun st o h => ?_, fun st o h => ?_⟩
  · obtain ⟨n, m, heq⟩ := scoutNode_failed_eq st o h
    exact ⟨_, by rw [heq, merge_failUpdate]⟩
  · obtain ⟨n, m, heq⟩ := architectNode_failed_eq st o h
    exact ⟨_, by rw [heq, merge_failUpdate]⟩
  · obtain ⟨n, m, heq⟩ := coderNode_failed_eq st o h
    exact ⟨_, by rw [heq, merge_failUpdate]⟩
  · obtain ⟨n, m, heq⟩ := qaNode_failed_eq st o h
    exact ⟨_, by rw [heq, merge_failUpdate]⟩

/-- Witness for `stage_failure_frame`: the scout conjunct at a concrete
failing extraction. -/
theorem stage_failure_frame_witness :
    ∃ e, merge initialState (scoutNode initialState (Except.error "browser crash")) =
      { initialState with status := Status.failed,
                          errors := initialState.errors ++ [e] } :=
  stage_failure_frame.1 initialState (Except.error "browser crash") rfl

/-! ## C1 — retry and invocation bounds -/

/-- `retryCount` after a merge. -/
lemma merge_retryCount (s : AgentState) (u : StateUpdate) :
    (merge s u).retryCount = u.retryCount.getD s.retryCount := rfl

/-- No update carries `maxRetries`: merges preserve it. -/
lemma merge_maxRetries (s : AgentState) (u : StateUpdate) :
    (merge s u).maxRetries = s.maxRetries := rfl

/-- The scout never writes `retryCount`. -/
lemma scoutNode_retryCount_none (st : AgentState) (o : Except String ScoutOutput) :
    (scoutNode st o).retryCount = none := by
  rcases o with e | out <;> rfl

/-- The architect never writes `retryCount`. -/
lemma architectNode_retryCount_none (st : AgentState) (o : Except String ArchitectPlan) :
    (architectNode st o).retryCount = none := by
  unfold architectNode
  rcases st.scoutData with _ | sd
  · rfl
  · rcases o with e | plan <;> rfl

/-- The coder never writes `retryCount`. -/
lemma coderNode_retryCount_none (st : AgentState) (o : Except String GeneratedCode) :
    (coderNode st o).retryCount = none := by
  unfold coderNode
  rcases st.scoutData with _ | sd
  · rfl
  · dsimp only
    rcases o with e | gc
    · rfl
    · dsimp only
      rcases resolveEntry gc.files with msg | files' <;> rfl

/-- QA writes `retryCount` only as `state.retryCount + 1`, and only
under its guard `retryCount < maxRetries`. -/
lemma qaNode_retryCount (st : AgentState) (o : Except String GptResult) :
    (qaNode st o).retryCount = none ∨
    ((qaNode st o).retryCount = some (st.retryCount + 1) ∧
      st.retryCount < st.maxRetries) := by
  unfold qaNode
  rcases st.generatedCode with _ | gc
  · exact Or.inl rfl
  · dsimp only
    rcases resolveAppContent gc.files with _ | app
    · exact Or.inl rfl
    · dsimp only
      rcases o with e | g
      · exact Or.inl rfl
      · dsimp only
        rcases g.metrics with _ | m
        · exact Or.inl rfl
        · dsimp only
          split
          · exact Or.inl rfl
          · split
            next hr => exact Or.inr ⟨rfl, hr⟩
            · exact Or.inl rfl

/-- Merging a QA update keeps `retryCount ≤ maxRetries`. -/
lemma merged_qa_retryCount_le (st : AgentState) (h : st.retryCount ≤ st.maxRetries)
    (o : Except String GptResult) :
    (merge st (qaNode st o)).retryCount ≤ (merge st (qaNode st o)).maxRetries := by
  rw [merge_retryCount, merge_maxRetries]
  rcases qaNode_retryCount st o with h0 | ⟨h1, h2⟩
  · rw [h0]; exact h
  · rw [h1]; exact h2

/-- One loop iteration keeps the retry bound on its result and on every
state it persists, and never changes `maxRetries`. -/
lemma retryIteration_bounds (o : Oracles) (st : AgentState) (lr : Nat)
    (hlr : lr ≤ st.maxRetries) :
    (retryIteration o st lr).1.retryCount ≤ (retryIteration o st lr).1.maxRetries ∧
    (retryIteration o st lr).1.maxRetries = st.maxRetries ∧
    (∀ s ∈ (retryIteration o st lr).2, s.retryCount ≤ s.maxRetries) := by
  unfold retryIteration
  dsimp only
  set s1 := { st with retryCount := lr, status := Status.coding, currentNode := some NodeName.coder } with hs1
  have h1 : s1.retryCount ≤ s1.maxRetries := hlr
  have h2rc : (merge s1 (coderNode s1 (o.coder lr))).retryCount = lr := by
    rw [merge_retryCount, coderNode_retryCount_none]; rfl
  have h2mr : (merge s1 (coderNode s1 (o.coder lr))).maxRetries = st.maxRetries := by
    rw [merge_maxRetries]
  set s2 := merge s1 (coderNode s1 (o.coder lr)) with hs2
  have h2 : s2.retryCount ≤ s2.maxRetries := by rw [h2rc, h2mr]; exact hlr
  split
  · set s3 := { s2 with status := Status.qa, currentNode := some NodeName.qa } with hs3
    have h3 : s3.retryCount ≤ s3.maxRetries := h2
    have h3mr : s3.maxRetries = st.maxRetries := h2mr
    have h4 := merged_qa_retryCount_le s3 h3 (o.qa lr)
    have h4mr : (merge s3 (qaNode s3 (o.qa lr))).maxRetries = st.maxRetries := by
      rw [merge_maxRetries]; exact h3mr
    refine ⟨h4, h4mr, ?_⟩
    intro s hs
    simp only [List.mem_cons, List.not_mem_nil, or_false] at hs
    rcases hs with rfl | rfl | rfl | rfl
    · exact h1
    · exact h2
    · exact h3
    · exact h4
  · refine ⟨h2, h2mr, ?_⟩
    intro s hs
    simp only [List.mem_cons, List.not_mem_nil, or_false] at hs
    rcases hs with rfl | rfl
    · exact h1
    · exact h2

/-- The retry loop keeps the retry bound everywhere, runs at most `fuel`
iterations, and never changes `maxRetries`. -/
lemma retryLoop_bounds (o : Oracles) :
    ∀ (fuel : Nat) (st : AgentState) (localRetry : Nat),
      st.retryCount ≤ st.maxRetries →
      (∀ s ∈ (retryLoop o fuel st localRetry).2.1, s.retryCount ≤ s.maxRetries) ∧
      (retryLoop o fuel st localRetry).1.retryCount ≤
        (retryLoop o fuel st localRetry).1.maxRetries ∧
      (retryLoop o fuel st localRetry).2.2 ≤ fuel ∧
      (retryLoop o fuel st localRetry).1.maxRetries = st.maxRetries := by
  intro fuel
  induction fuel with
  | zero =>
    intro st lr h
    exact ⟨by simp [retryLoop], h, Nat.le_refl 0, rfl⟩
  | succ fuel ih =>
    intro st lr h
    unfold retryLoop
    split
    next hc =>
      obtain ⟨hst, hrc, hlr⟩ := hc
      dsimp only
      have hiter := retryIteration_bounds o st (lr + 1) hlr
      obtain ⟨hi1, hi2, hi3⟩ := hiter
      have hrest := ih (retryIteration o st (lr + 1)).1 (lr + 1) hi1
      obtain ⟨hr1, hr2, hr3, hr4⟩ := hrest
      refine ⟨?_, hr2, by omega, by rw [hr4, hi2]⟩
      intro s hs
      rcases List.mem_append.mp hs with h' | h'
      · exact hi3 s h'
      · exact hr1 s h'
    · exact ⟨by simp, h, by simp, rfl⟩

/-- C1: for every job run by the orchestrator — any oracle behavior —
`retryCount` never exceeds `maxRetries` in any persisted state or in the
final state, and the total number of coder invocations (initial attempt
plus all retries) never exceeds `maxRetries + 1`. -/
theorem orchestrator_retry_and_call_bounds (o : Oracles) :
    (∀ s ∈ (runAgent o).trace, s.retryCount ≤ s.maxRetries) ∧
    (runAgent o).final.retryCount ≤ (runAgent o).final.maxRetries ∧
    (runAgent o).coderCalls ≤ (runAgent o).final.maxRetries + 1 := by
  have h0 : initialState.retryCount ≤ initialState.maxRetries := by decide
  have h1 : stScouting.retryCount ≤ stScouting.maxRetries := h0
  have h2rc : ∀ o, (stAfterScout o).retryCount = stScouting.retryCount := by
    intro o
    rw [stAfterScout, merge_retryCount, scoutNode_retryCount_none]; rfl
  have h2mr : (stAfterScout o).maxRetries = stScouting.maxRetries :=
    merge_maxRetries stScouting _
  have h2 : (stAfterScout o).retryCount ≤ (stAfterScout o).maxRetries := by
    rw [h2rc, h2mr]; exact h1
  have h3 : (stPlanning o).retryCount ≤ (stPlanning o).maxRetries := h2
  have h4rc : (stAfterArchitect o).retryCount = (stPlanning o).retryCount := by
    rw [stAfterArchitect, merge_retryCount, architectNode_retryCount_none]; rfl
  have h4mr : (stAfterArchitect o).maxRetries = (stPlanning o).maxRetries :=
    merge_maxRetries (stPlanning o) _
  have h4 : (stAfterArchitect o).retryCount ≤ (stAfterArchitect o).maxRetries := by
    rw [h4rc, h4mr]; exact h3
  have h5 : (stCoding o).retryCount ≤ (stCoding o).maxRetries := h4
  have h6rc : (stAfterCoder o).retryCount = (stCoding o).retryCount := by
    rw [stAfterCoder, merge_retryCount, coderNode_retryCount_none]; rfl
  have h6mr : (stAfterCoder o).maxRetries = (stCoding o).maxRetries :=
    merge_maxRetries (stCoding o) _
  have h6 : (stAfterCoder o).retryCount ≤ (stAfterCoder o).maxRetries := by
    rw [h6rc, h6mr]; exact h5
  have h7 : (stQa o).retryCount ≤ (stQa o).maxRetries := h6
  have h8 : (stAfterQa o).retryCount ≤ (stAfterQa o).maxRetries :=
    merged_qa_retryCount_le (stQa o) h7 (o.qa 0)
  obtain ⟨hl1, hl2, hl3, hl4⟩ :=
    retryLoop_bounds o (stAfterQa o).maxRetries (stAfterQa o) 0 h8
  have hfrc : (finalizedState o).retryCount ≤ (finalizedState o).maxRetries := by
    unfold finalizedState
    split
    · exact hl2
    · exact hl2
  have hfmr : (finalizedState o).maxRetries = (stAfterQa o).maxRetries := by
    unfold finalizedState
    split
    · exact hl4
    · exact hl4
  refine ⟨?_, hfrc, ?_⟩
  · intro s hs
    simp only [runAgent] at hs
    rcases List.mem_append.mp hs with hs' | hs'
    · rcases List.mem_append.mp hs' with hs'' | hs''
      · simp only [List.mem_cons, List.not_mem_nil, or_false] at hs''
        rcases hs'' with rfl | rfl | rfl | rfl | rfl | rfl | rfl | rfl | rfl
        · exact h0
        · exact h1
        · exact h2
        · exact h3
        · exact h4
        · exact h5
        · exact h6
        · exact h7
        · exact h8
      · exact hl1 s hs''
    · simp only [List.mem_cons, List.not_mem_nil, or_false] at hs'
      subst hs'
      exact hfrc
  · simp only [runAgent]
    rw [hfmr]
    have : (loopResult o).2.2 ≤ (stAfterQa o).maxRetries := hl3
    omega

/-- Witness for `orchestrator_retry_and_call_bounds` at the §8 reference
scenario (first attempt scores 72, second 95). -/
theorem orchestrator_retry_and_call_bounds_witness :
    initialState.retryCount ≤ initialState.maxRetries ∧
    (runAgent happyRetryOracles).coderCalls ≤
      (runAgent happyRetryOracles).final.maxRetries + 1 :=
  ⟨(orchestrator_retry_and_call_bounds happyRetryOracles).1 initialState
      (by simp [runAgent]),
   (orchestrator_retry_and_call_bounds happyRetryOracles).2.2⟩

/-! ## C3 — behavior after an extraction failure -/

/-- The message of a JS TypeError raised by dereferencing `undefined`. -/
def teMsg : String := "TypeError: Cannot read properties of undefined"

/-- With no snapshot in state, the architect throws and fails. -/
lemma architectNode_noScout (st : AgentState) (h : st.scoutData = none)
    (o : Except String ArchitectPlan) :
    architectNode st o = failUpdate "architect" teMsg st := by
  unfold architectNode; rw [h]; rfl

/-- With no snapshot in state, the coder throws and fails. -/
lemma coderNode_noScout (st : AgentState) (h : st.scoutData = none)
    (o : Except String GeneratedCode) :
    coderNode st o = failUpdate "coder" teMsg st := by
  unfold coderNode; rw [h]; rfl

/-- With no generated code in state, QA throws and fails. -/
lemma qaNode_noCode (st : AgentState) (h : st.generatedCode = none)
    (o : Except String GptResult) :
    qaNode st o = failUpdate "qa" teMsg st := by
  unfold qaNode; rw [h]; rfl

/-- The retry loop exits immediately unless the state is `coding`. -/
lemma retryLoop_not_coding (o : Oracles) (fuel : Nat) (st : AgentState)
    (lr : Nat) (h : st.status ≠ Status.coding) :
    retryLoop o fuel st lr = (st, [], 0) := by
  cases fuel with
  | zero => rfl
  | succ fuel =>
    unfold retryLoop
    rw [if_neg]
    intro hc
    exact h hc.1

/-- C3 amended: if the extraction (scout) stage fails, the job does end
with status `failed` and an empty `decisionLog` — but the orchestrator
does NOT stop: the architect, coder and QA stages still run (each
dereferencing missing state and failing in turn), so the final JobState
carries four error entries — tagged scout, architect, coder, qa — whose
first is the scout's, not exactly one. -/
theorem scout_failure_cascade (o : Oracles) (e : String)
    (h : o.scout = Except.error e) :
    (runAgent o).final.status = Status.failed ∧
    (runAgent o).final.decisionLog = [] ∧
    ((runAgent o).final.errors.map ErrorEntry.node) =
      ["scout", "architect", "coder", "qa"] ∧
    (runAgent o).final.errors.head? = some { node := "scout", error := e } := by
  have hsc : scoutNode stScouting o.scout = failUpdate "scout" e stScouting := by
    rw [h]; rfl
  have h2 : stAfterScout o =
      { stScouting with status := Status.failed, errors := [⟨"scout", e⟩] } := by
    rw [stAfterScout, hsc, merge_failUpdate]; rfl
  have h3sd : (stPlanning o).scoutData = none := by
    rw [stPlanning, h2]; rfl
  have h4 : stAfterArchitect o =
      { stPlanning o with status := Status.failed, errors := (stPlanning o).errors ++ [⟨"architect", teMsg⟩] } := by
    rw [stAfterArchitect, architectNode_noScout _ h3sd, merge_failUpdate]
  have h5sd : (stCoding o).scoutData = none := by
    rw [stCoding, h4]; exact h3sd
  have h6 : stAfterCoder o =
      { stCoding o with status := Status.failed, errors := (stCoding o).errors ++ [⟨"coder", teMsg⟩] } := by
    rw [stAfterCoder, coderNode_noScout _ h5sd, merge_failUpdate]
  have h7gc : (stQa o).generatedCode = none := by
    rw [stQa, h6, stCoding, h4, stPlanning, h2]; rfl
  have h8 : stAfterQa o =
      { stQa o with status := Status.failed, errors := (stQa o).errors ++ [⟨"qa", teMsg⟩] } := by
    rw [stAfterQa, qaNode_noCode _ h7gc, merge_failUpdate]
  have hstatus : (stAfterQa o).status = Status.failed := by rw [h8]
  have hloop : loopResult o = (stAfterQa o, [], 0) := by
    rw [loopResult]
    exact retryLoop_not_coding o _ _ 0 (by rw [hstatus]; decide)
  have hfin : finalizedState o = stAfterQa o := by
    rw [finalizedState, hloop]
    rw [if_neg (by simp [hstatus])]
  have herr : (stAfterQa o).errors =
      [⟨"scout", e⟩, ⟨"architect", teMsg⟩, ⟨"coder", teMsg⟩, ⟨"qa", teMsg⟩] := by
    rw [h8, stQa, h6, stCoding, h4, stPlanning, h2]; rfl
  have hlog : (stAfterQa o).decisionLog = [] := by
    rw [h8, stQa, h6, stCoding, h4, stPlanning, h2]; rfl
  have hfin' : (runAgent o).final = stAfterQa o := by
    simp only [runAgent]
    exact hfin
  rw [hfin', hstatus, hlog, herr]
  exact ⟨rfl, rfl, rfl, rfl⟩

/-- C3 counterexample: with a concrete extraction failure the final
JobState holds FOUR error entries (scout, architect, coder, qa), not
exactly one tagged scout, and the later stages demonstrably ran (each
appended its own error) — refuting "stops immediately: no later stage
runs ... exactly one error entry tagged scout". -/
theorem scout_failure_not_single_error_counterexample :
    (runAgent scoutFailureOracles).final.status = Status.failed ∧
    (runAgent scoutFailureOracles).final.decisionLog = [] ∧
    (runAgent scoutFailureOracles).final.errors.length = 4 ∧
    ((runAgent scoutFailureOracles).final.errors.map ErrorEntry.node) =
      ["scout", "architect", "coder", "qa"] := by decide

/-- Witness for `scout_failure_cascade` at the concrete failing
extraction `"browser crash"`. -/
theorem scout_failure_cascade_witness :
    (runAgent scoutFailureOracles).final.status = Status.failed ∧
    (runAgent scoutFailureOracles).final.decisionLog = [] ∧
    ((runAgent scoutFailureOracles).final.errors.map ErrorEntry.node) =
      ["scout", "architect", "coder", "qa"] ∧
    (runAgent scoutFailureOracles).final.errors.head? =
      some { node := "scout", error := "browser crash" } :=
  scout_failure_cascade scoutFailureOracles "browser crash" rfl

/-! ## C5 — coder structured-output parse failure -/

/-- With a snapshot present, a coder exception fails the stage. -/
lemma coderNode_oracle_err (st : AgentState) (sd : ScoutOutput)
    (h : st.scoutData = some sd) (e : String) :
    coderNode st (Except.error e) = failUpdate "coder" e st := by
  unfold coderNode; rw [h]

/-- C5 amended: if the coder's model response fails to parse as
structured output, the job terminates with status `failed` after that
single coder invocation — not `complete`: a coder exception returns a
`failed` update, the unconditionally-invoked QA stage then fails on the
missing GeneratedOutput, and the retry loop (which requires status
`coding`) never runs, so there are no further attempts. -/
theorem coder_parse_failure_fails_job (o : Oracles) (s : ScoutOutput)
    (p : ArchitectPlan) (e : String)
    (hs : o.scout = Except.ok s) (hp : o.architect = Except.ok p)
    (hc : o.coder 0 = Except.error e) :
    (runAgent o).final.status = Status.failed ∧
    (runAgent o).coderCalls = 1 ∧
    ((runAgent o).final.errors.map ErrorEntry.node) = ["coder", "qa"] := by
  have h2 : stAfterScout o = merge stScouting (scoutNode stScouting (Except.ok s)) := by
    rw [stAfterScout, hs]
  have h3sd : (stPlanning o).scoutData = some s := by
    rw [stPlanning, h2]; rfl
  have h3gc : (stPlanning o).generatedCode = none := by
    rw [stPlanning, h2]; rfl
  have h3err : (stPlanning o).errors = [] := by
    rw [stPlanning, h2]; rfl
  have h4 : stAfterArchitect o =
      merge (stPlanning o) (architectNode (stPlanning o) (Except.ok p)) := by
    rw [stAfterArchitect, hp]
  have harch : architectNode (stPlanning o) (Except.ok p) =
      ({ architectPlan := some p, status := some Status.coding,
         currentNode := some (some NodeName.coder),
         decisionLog := some ((stPlanning o).decisionLog ++
           [{ node := "architect", decision := "Created component plan", reasoning := "designed components" }]) } : StateUpdate) := by
    unfold architectNode; rw [h3sd]
  have h5sd : (stCoding o).scoutData = some s := by
    rw [stCoding, h4, harch]; exact h3sd
  have h5gc : (stCoding o).generatedCode = none := by
    rw [stCoding, h4, harch]; exact h3gc
  have h5err : (stCoding o).errors = [] := by
    rw [stCoding, h4, harch]; exact h3err
  have h6 : stAfterCoder o =
      { stCoding o with status := Status.failed, errors := (stCoding o).errors ++ [⟨"coder", e⟩] } := by
    rw [stAfterCoder, hc, coderNode_oracle_err _ s h5sd, merge_failUpdate]
  have h7gc : (stQa o).generatedCode = none := by
    rw [stQa, h6]; exact h5gc
  have h8 : stAfterQa o =
      { stQa o with status := Status.failed, errors := (stQa o).errors ++ [⟨"qa", teMsg⟩] } := by
    rw [stAfterQa, qaNode_noCode _ h7gc, merge_failUpdate]
  have hstatus : (stAfterQa o).status = Status.failed := by rw [h8]
  have hloop : loopResult o = (stAfterQa o, [], 0) := by
    rw [loopResult]
    exact retryLoop_not_coding o _ _ 0 (by rw [hstatus]; decide)
  have hfin : finalizedState o = stAfterQa o := by
    rw [finalizedState, hloop]
    rw [if_neg (by simp [hstatus])]
  have herr : (stAfterQa o).errors = [⟨"coder", e⟩, ⟨"qa", teMsg⟩] := by
    rw [h8, stQa, h6, h5err]; rfl
  refine ⟨?_, ?_, ?_⟩
  · show (finalizedState o).status = Status.failed
    rw [hfin, hstatus]
  · show 1 + (loopResult o).2.2 = 1
    rw [hloop]
    rfl
  · show ((finalizedState o).errors.map ErrorEntry.node) = ["coder", "qa"]
    rw [hfin, herr]; rfl

/-- C5 counterexample: with extraction and planning succeeding and a
concrete unparseable coder response, the job ends `failed` (with coder
and qa error entries) after ONE coder invocation — refuting "the job
still terminates with status complete ... on every one of the
maxRetries + 1 attempts" (those attempts never happen). -/
theorem coder_parse_failure_counterexample :
    (runAgent coderParseFailureOracles).final.status = Status.failed ∧
    (runAgent coderParseFailureOracles).coderCalls = 1 ∧
    ((runAgent coderParseFailureOracles).final.errors.map ErrorEntry.node) =
      ["coder", "qa"] := by decide

/-- Witness for `coder_parse_failure_fails_job` at the concrete
unparseable-coder run. -/
theorem coder_parse_failure_fails_job_witness :
    (runAgent coderParseFailureOracles).final.status = Status.failed ∧
    (runAgent coderParseFailureOracles).coderCalls = 1 ∧
    ((runAgent coderParseFailureOracles).final.errors.map ErrorEntry.node) =
      ["coder", "qa"] :=
  coder_parse_failure_fails_job coderParseFailureOracles exampleScout
    examplePlan "Coder failed to return valid JSON" rfl rfl rfl

/-! ## C4 — entry-file contract of the coder stage -/

/-- A successful lookup implies a non-empty file object. -/
lemma jsGet_some_ne_nil {files : List (String × String)} {k v : String}
    (h : jsGet files k = some v) : files ≠ [] := by
  intro hnil
  subst hnil
  simp [jsGet] at h

/-- Lookup skips a non-matching head. -/
lemma jsGet_cons_ne {p : String × String} {k : String} (h : ¬ p.1 = k)
    (l : List (String × String)) : jsGet (p :: l) k = jsGet l k := by
  simp [jsGet, List.find?_cons, h]

/-- In-place update makes the key's lookup return the new value. -/
lemma jsGet_map_set_self {k v : String} :
    ∀ (files : List (String × String)), files.any (fun p => p.1 = k) = true →
    jsGet (files.map (fun p => if p.1 = k then (k, v) else p)) k = some v := by
  intro files
  induction files with
  | nil => intro h; simp at h
  | cons p t ih =>
    intro h
    by_cases hpk : p.1 = k
    · simp [jsGet, hpk]
    · have ht : t.any (fun p => p.1 = k) = true := by
        simp only [List.any_cons] at h
        rcases Bool.or_eq_true_iff.mp h with h' | h'
        · exact absurd (by simpa using h') hpk
        · exact h'
      rw [List.map_cons, if_neg hpk, jsGet_cons_ne hpk]
      exact ih ht

/-- After `files[k] = v`, looking up `k` yields `v`. -/
lemma jsGet_jsSet_self (files : List (String × String)) (k v : String) :
    jsGet (jsSet files k v) k = some v := by
  unfold jsSet
  by_cases hany : files.any (fun p => p.1 = k) = true
  · rw [if_pos hany]
    exact jsGet_map_set_self files hany
  · rw [if_neg hany]
    have hnone : files.find? (fun p => decide (p.1 = k)) = none := by
      rw [List.find?_eq_none]
      intro p hp
      simp only [decide_eq_true_eq]
      intro hk
      exact hany (List.any_eq_true.mpr ⟨p, hp, by simp [hk]⟩)
    simp [jsGet, List.find?_append, hnone]

/-- Assignment never empties the file object. -/
lemma jsSet_ne_nil (files : List (String × String)) (k v : String) :
    jsSet files k v ≠ [] := by
  unfold jsSet
  by_cases hany : files.any (fun p => p.1 = k) = true
  · rw [if_pos hany]
    intro h
    rcases files with _ | ⟨p, t⟩
    · simp at hany
    · simp at h
  · rw [if_neg hany]
    simp

/-- Whenever entry resolution succeeds, the resulting files contain an
`App.tsx` key and are non-empty. -/
lemma resolveEntry_ok_props {files files' : List (String × String)}
    (h : resolveEntry files = Except.ok files') :
    (jsGet files' "App.tsx").isSome ∧ files' ≠ [] := by
  unfold resolveEntry at h
  rcases happ : resolveEntryAppFile files with _ | af <;> rw [happ] at h <;>
    dsimp only at h
  · rcases hmain : (files.map Prod.fst).find? (fun k =>
        strIncludes (strToLower k) "app" || strIncludes (strToLower k) "main" ||
        strEndsWith (strToLower k) ".tsx") with _ | mainFile <;> rw [hmain] at h <;>
      dsimp only at h
    · cases h
    · simp only [Except.ok.injEq] at h
      subst h
      exact ⟨by rw [jsGet_jsSet_self]; rfl, jsSet_ne_nil _ _ _⟩
  · by_cases hget : jsGet files "App.tsx" = some af
    · rw [if_pos hget] at h
      simp only [Except.ok.injEq] at h
      subst h
      exact ⟨by rw [hget]; rfl, jsGet_some_ne_nil hget⟩
    · rw [if_neg hget] at h
      simp only [Except.ok.injEq] at h
      subst h
      exact ⟨by rw [jsGet_jsSet_self]; rfl, jsSet_ne_nil _ _ _⟩

/-- A state ready for the coder stage (snapshot present). -/
def coderReadyState : AgentState :=
  { initialState with scoutData := some exampleScout, status := Status.coding, currentNode := some NodeName.coder }

/-- C4 amended: the coder stage returns a `qa`-status update only when
its GeneratedOutput is non-empty and contains an `App.tsx` entry —
present directly or installed by the name heuristics (the installed
content may be the matched file's KEY rather than its source content);
with no plausible entry file the coder stage fails. The job's status
nonetheless reaches `qa` on every run: the orchestrator persists a
`qa`-status state unconditionally before invoking the QA stage, even
when the coder failed and no GeneratedOutput exists. -/
theorem coder_qa_entry_contract :
    (∀ st o, (coderNode st o).status = some Status.qa →
      ∃ gc, (coderNode st o).generatedCode = some gc ∧
        gc.files ≠ [] ∧ (jsGet gc.files "App.tsx").isSome) ∧
    (∀ st (sd : ScoutOutput) (gc : GeneratedCode) msg, st.scoutData = some sd →
      resolveEntry gc.files = Except.error msg →
      (coderNode st (Except.ok gc)).status = some Status.failed) ∧
    (∀ o : Oracles, stQa o ∈ (runAgent o).trace ∧ (stQa o).status = Status.qa) := by
  refine ⟨?_, ?_, ?_⟩
  · intro st o h
    rcases hsd : st.scoutData with _ | sd
    · rw [coderNode_noScout st hsd o] at h
      simp [failUpdate] at h
    · rcases o with e | gc
      · rw [coderNode_oracle_err st sd hsd e] at h
        simp [failUpdate] at h
      · rcases hre : resolveEntry gc.files with msg | files'
        · have hcoder : coderNode st (Except.ok gc) = failUpdate "coder" msg st := by
            unfold coderNode; rw [hsd]; dsimp only; rw [hre]
          rw [hcoder] at h
          simp [failUpdate] at h
        · have hcoder : coderNode st (Except.ok gc) = ({ generatedCode := some { files := files' }, status := some Status.qa, currentNode := some (some NodeName.qa), decisionLog := some (st.decisionLog ++ [{ node := "coder", decision := if st.retryCount > 0 then "Regenerated code with fixes" else "Generated initial code", reasoning := "created files" }]) } : StateUpdate) := by
            unfold coderNode; rw [hsd]; dsimp only; rw [hre]
          rw [hcoder]
          obtain ⟨h1, h2⟩ := resolveEntry_ok_props hre
          exact ⟨{ files := files' }, rfl, h2, h1⟩
  · intro st sd gc msg hsd hre
    have hcoder : coderNode st (Except.ok gc) = failUpdate "coder" msg st := by
      unfold coderNode; rw [hsd]; dsimp only; rw [hre]
    rw [hcoder]
    rfl
  · intro o
    exact ⟨by simp [runAgent], rfl⟩

/-- C4 counterexample: in the unparseable-coder run the persisted trace
contains a state with status `qa` and NO GeneratedOutput at all —
refuting "a job's status reaches qa only when its JobState carries a
non-empty GeneratedOutput with a resolvable App.tsx entry"; moreover,
when the entry is installed via the case-insensitive `app.tsx` KEY
lookup, the installed `App.tsx` carries the matched file's key
(`"src/app.tsx"`), not that file's source content — refuting "with the
renamed entry carrying that file's source content". -/
theorem qa_status_without_entry_counterexample :
    (stQa coderParseFailureOracles).status = Status.qa ∧
    (stQa coderParseFailureOracles).generatedCode = none ∧
    stQa coderParseFailureOracles ∈ (runAgent coderParseFailureOracles).trace ∧
    resolveEntry [("src/app.tsx", "export default function App(){}")] =
      Except.ok [("src/app.tsx", "export default function App(){}"),
                 ("App.tsx", "src/app.tsx")] := by
  refine ⟨rfl, by decide, by simp [runAgent], by rfl⟩

/-- Witness for `coder_qa_entry_contract`: a direct-entry success and a
no-plausible-entry failure. -/
theorem coder_qa_entry_contract_witness :
    (∃ gc, (coderNode coderReadyState (Except.ok exampleCode)).generatedCode = some gc ∧
      gc.files ≠ [] ∧ (jsGet gc.files "App.tsx").isSome) ∧
    (coderNode coderReadyState
      (Except.ok { files := [("readme.md", "hello")] })).status = some Status.failed :=
  ⟨coder_qa_entry_contract.1 coderReadyState (Except.ok exampleCode) (by decide),
   coder_qa_entry_contract.2.1 coderReadyState exampleScout
     { files := [("readme.md", "hello")] } "Generated code missing App.tsx"
     rfl (by rfl)⟩

/-! ## C9 — qa_issue / qa_metrics emission gating -/

/-- A mapped group of non-metric events counts no metric events. -/
lemma metricLen_map_not {α : Type} (f : α → StreamEvent)
    (hf : ∀ x, isMetricEv (f x) = false) (l : List α) :
    ((l.map f).filter isMetricEv).length = 0 := by
  rw [List.length_eq_zero]
  refine List.filter_eq_nil.mpr (fun a ha => ?_)
  obtain ⟨x, _, rfl⟩ := List.mem_map.mp ha
  simp [hf]

/-- A mapped group of non-issue events holds no issue event. -/
lemma anyIssue_map_not {α : Type} (f : α → StreamEvent)
    (hf : ∀ x, isIssueEv (f x) = false) (l : List α) :
    ((l.map f).any isIssueEv) = false := by
  rw [Bool.eq_false_iff]
  intro h
  obtain ⟨a, ha, hpa⟩ := List.any_eq_true.mp h
  obtain ⟨x, _, rfl⟩ := List.mem_map.mp ha
  rw [hf] at hpa
  cases hpa

/-- A poll emits exactly one `qa_metrics` event when its guard fires,
none otherwise. -/
lemma pollStep_metricLen (obs : StreamObs) (st : AgentState) :
    ((pollStep obs st).2.1.filter isMetricEv).length =
      if qaMetricsFire obs st then 1 else 0 := by
  show ((statusEvents obs st ++ decisionEvents obs st ++ errorEvents obs st ++
     qaIssueEvents obs st ++ qaMetricsEvents obs st ++ progressEvents obs st ++
     completeEvents st).filter isMetricEv).length = _
  simp only [List.filter_append, List.length_append]
  have h1 : ((statusEvents obs st).filter isMetricEv).length = 0 := by
    unfold statusEvents; split <;> rfl
  have h2 : ((decisionEvents obs st).filter isMetricEv).length = 0 := by
    unfold decisionEvents; split
    · exact metricLen_map_not StreamEvent.decisionEv (fun x => rfl) _
    · rfl
  have h3 : ((errorEvents obs st).filter isMetricEv).length = 0 := by
    unfold errorEvents; split
    · exact metricLen_map_not StreamEvent.errorEv (fun x => rfl) _
    · rfl
  have h4 : ((qaIssueEvents obs st).filter isMetricEv).length = 0 := by
    unfold qaIssueEvents
    rcases st.qaResult with _ | r
    · rfl
    · dsimp only
      split
      · exact metricLen_map_not (fun (i : QAIssue) => StreamEvent.qaIssueEv
          i.description i.suggestion
          (if i.severity = "" then "medium" else i.severity))
          (fun x => rfl) _
      · rfl
  have h6 : ((progressEvents obs st).filter isMetricEv).length = 0 := by
    unfold progressEvents
    rcases st.currentNode with _ | n
    · rfl
    · dsimp only
      split <;> rfl
  have h7 : ((completeEvents st).filter isMetricEv).length = 0 := by
    unfold completeEvents
    split
    · rcases st.generatedCode with _ | gc <;> rfl
    · rfl
  have h5 : ((qaMetricsEvents obs st).filter isMetricEv).length =
      if qaMetricsFire obs st then 1 else 0 := by
    unfold qaMetricsEvents
    rcases hq : st.qaResult with _ | r
    · have : qaMetricsFire obs st = false := by unfold qaMetricsFire; rw [hq]
      rw [this]; rfl
    · dsimp only
      split
      next hf => rfl
      next hf => rfl
  omega

/-- A poll emits a `qa_issue` batch exactly when its guard fires. -/
lemma pollStep_anyIssue (obs : StreamObs) (st : AgentState) :
    ((pollStep obs st).2.1.any isIssueEv) = qaIssueFire obs st := by
  show ((statusEvents obs st ++ decisionEvents obs st ++ errorEvents obs st ++
     qaIssueEvents obs st ++ qaMetricsEvents obs st ++ progressEvents obs st ++
     completeEvents st).any isIssueEv) = _
  simp only [List.any_append]
  have h1 : ((statusEvents obs st).any isIssueEv) = false := by
    unfold statusEvents; split <;> rfl
  have h2 : ((decisionEvents obs st).any isIssueEv) = false := by
    unfold decisionEvents; split
    · exact anyIssue_map_not StreamEvent.decisionEv (fun x => rfl) _
    · rfl
  have h3 : ((errorEvents obs st).any isIssueEv) = false := by
    unfold errorEvents; split
    · exact anyIssue_map_not StreamEvent.errorEv (fun x => rfl) _
    · rfl
  have h5 : ((qaMetricsEvents obs st).any isIssueEv) = false := by
    unfold qaMetricsEvents
    rcases st.qaResult with _ | r
    · rfl
    · dsimp only; split <;> rfl
  have h6 : ((progressEvents obs st).any isIssueEv) = false := by
    unfold progressEvents
    rcases st.currentNode with _ | n
    · rfl
    · dsimp only; split <;> rfl
  have h7 : ((completeEvents st).any isIssueEv) = false := by
    unfold completeEvents
    split
    · rcases st.generatedCode with _ | gc <;> rfl
    · rfl
  have h4 : ((qaIssueEvents obs st).any isIssueEv) = qaIssueFire obs st := by
    unfold qaIssueEvents
    rcases hq : st.qaResult with _ | r
    · have : qaIssueFire obs st = false := by unfold qaIssueFire; rw [hq]
      rw [this]; rfl
    · dsimp only
      split
      next hf =>
        rw [hf]
        have hne : r.issues ≠ [] := by
          unfold qaIssueFire at hf
          rw [hq] at hf
          exact of_decide_eq_true (Bool.and_eq_true_iff.mp
            (Bool.and_eq_true_iff.mp hf).1).1
        rcases hiss : r.issues with _ | ⟨i, t⟩
        · exact absurd hiss hne
        · simp [isIssueEv]
      next hf =>
        rw [Bool.eq_false_iff.mpr hf]
        rfl
  rw [h1, h2, h3, h4, h5, h6, h7]
  simp

/-- The metrics flag after one poll. -/
lemma pollStep_metricsSent (obs : StreamObs) (st : AgentState) :
    (pollStep obs st).1.qaMetricsSent =
      if qaFlagsReset st then false
      else obs.qaMetricsSent || qaMetricsFire obs st := rfl

/-- The issues flag after one poll. -/
lemma pollStep_issuesSent (obs : StreamObs) (st : AgentState) :
    (pollStep obs st).1.qaIssuesSent =
      if qaFlagsReset st then false
      else obs.qaIssuesSent || qaIssueFire obs st := rfl

/-- No metrics guard fires without a qaResult. -/
lemma qaMetricsFire_none (obs : StreamObs) (st : AgentState)
    (hq : st.qaResult = none) : qaMetricsFire obs st = false := by
  unfold qaMetricsFire; rw [hq]

/-- No issue guard fires without a qaResult. -/
lemma qaIssueFire_none (obs : StreamObs) (st : AgentState)
    (hq : st.qaResult = none) : qaIssueFire obs st = false := by
  unfold qaIssueFire; rw [hq]

/-- The reset branch never triggers while a qaResult is present. -/
lemma qaFlagsReset_not_some (st : AgentState) (r : QAResult)
    (hq : st.qaResult = some r) : ¬ qaFlagsReset st := by
  intro hr
  unfold qaFlagsReset at hr
  rw [hq] at hr
  exact Option.noConfusion hr.2.2

/-- Metric count of a poll sequence, unfolded one poll. -/
lemma countQaMetrics_cons (a : List StreamEvent) (l : List (List StreamEvent)) :
    countQaMetrics (a :: l) = (a.filter isMetricEv).length + countQaMetrics l := by
  simp [countQaMetrics]

/-- Batch count of a poll sequence, unfolded one poll. -/
lemma countQaIssueBatches_cons (a : List StreamEvent) (l : List (List StreamEvent)) :
    countQaIssueBatches (a :: l) =
      (if a.any isIssueEv then 1 else 0) + countQaIssueBatches l := by
  unfold countQaIssueBatches
  rw [List.filter_cons]
  split <;> simp [Nat.add_comm]

/-- Over polls that all carry a qaResult, the stream emits at most one
`qa_metrics` event and one `qa_issue` batch (none once the flags are
set: the flags are never reset while a qaResult is present). -/
lemma runStream_counts_all_some : ∀ (polls : List AgentState) (obs : StreamObs),
    (∀ s ∈ polls, s.qaResult.isSome) →
    countQaMetrics (runStream obs polls) ≤ (if obs.qaMetricsSent then 0 else 1) ∧
    countQaIssueBatches (runStream obs polls) ≤ (if obs.qaIssuesSent then 0 else 1) := by
  intro polls
  induction polls with
  | nil =>
    intro obs _
    constructor <;> simp [runStream, countQaMetrics, countQaIssueBatches]
  | cons st rest ih =>
    intro obs h
    obtain ⟨r, hq⟩ := Option.isSome_iff_exists.mp (h st (List.mem_cons_self _ _))
    have hreset := qaFlagsReset_not_some st r hq
    have hms : (pollStep obs st).1.qaMetricsSent =
        (obs.qaMetricsSent || qaMetricsFire obs st) := by
      rw [pollStep_metricsSent, if_neg hreset]
    have his : (pollStep obs st).1.qaIssuesSent =
        (obs.qaIssuesSent || qaIssueFire obs st) := by
      rw [pollStep_issuesSent, if_neg hreset]
    have hfm : qaMetricsFire obs st = (!obs.qaMetricsSent && qaEmitStatusOk st.status) := by
      unfold qaMetricsFire; rw [hq]
    have hfi : qaIssueFire obs st =
        (decide (r.issues ≠ []) && !obs.qaIssuesSent && qaEmitStatusOk st.status) := by
      unfold qaIssueFire; rw [hq]
    unfold runStream
    dsimp only
    by_cases hcl : (pollStep obs st).2.2 = true
    · rw [if_pos hcl]
      constructor
      · rw [show countQaMetrics [(pollStep obs st).2.1] =
          ((pollStep obs st).2.1.filter isMetricEv).length by simp [countQaMetrics]]
        rw [pollStep_metricLen, hfm]
        cases hb : obs.qaMetricsSent <;>
          cases hok : qaEmitStatusOk st.status <;> simp
      · rw [show countQaIssueBatches [(pollStep obs st).2.1] =
          (if (pollStep obs st).2.1.any isIssueEv then 1 else 0) by
            rw [countQaIssueBatches_cons]
            simp [countQaIssueBatches]]
        rw [pollStep_anyIssue, hfi]
        cases hb : obs.qaIssuesSent <;>
          cases hok : qaEmitStatusOk st.status <;>
          cases hne : decide (r.issues ≠ []) <;> simp
    · rw [if_neg hcl]
      have hrest := ih (pollStep obs st).1 (fun s hs => h s (List.mem_cons_of_mem _ hs))
      constructor
      · rw [countQaMetrics_cons, pollStep_metricLen, hfm]
        have hb := hrest.1
        rw [hms, hfm] at hb
        rcases Bool.eq_false_or_eq_true obs.qaMetricsSent with hmsent | hmsent <;>
          rw [hmsent] at hb ⊢ <;>
          rcases Bool.eq_false_or_eq_true (qaEmitStatusOk st.status) with hok | hok <;>
          rw [hok] at hb ⊢ <;>
          (try simp at hb) <;> (try simp) <;> omega
      · rw [countQaIssueBatches_cons, pollStep_anyIssue, hfi]
        have hb := hrest.2
        rw [his, hfi] at hb
        rcases Bool.eq_false_or_eq_true obs.qaIssuesSent with hisent | hisent <;>
          rw [hisent] at hb ⊢ <;>
          rcases Bool.eq_false_or_eq_true (qaEmitStatusOk st.status) with hok | hok <;>
          rw [hok] at hb ⊢ <;>
          rcases Bool.eq_false_or_eq_true (decide (r.issues ≠ [])) with hne | hne <;>
          rw [hne] at hb ⊢ <;>
          (try simp at hb) <;> (try simp) <;> omega

/-- A poll without a qaResult emits no qa events and leaves clear flags
clear. -/
lemma pollStep_none (obs : StreamObs) (st : AgentState)
    (hq : st.qaResult = none)
    (hm : obs.qaMetricsSent = false) (hi : obs.qaIssuesSent = false) :
    ((pollStep obs st).2.1.filter isMetricEv).length = 0 ∧
    ((pollStep obs st).2.1.any isIssueEv) = false ∧
    (pollStep obs st).1.qaMetricsSent = false ∧
    (pollStep obs st).1.qaIssuesSent = false := by
  refine ⟨?_, ?_, ?_, ?_⟩
  · rw [pollStep_metricLen, qaMetricsFire_none obs st hq]
    rfl
  · rw [pollStep_anyIssue]
    exact qaIssueFire_none obs st hq
  · rw [pollStep_metricsSent, hm, qaMetricsFire_none obs st hq]
    split <;> rfl
  · rw [pollStep_issuesSent, hi, qaIssueFire_none obs st hq]
    split <;> rfl

/-- A polled state sequence in which a qaResult, once present, stays
present — true of every (sub)sequence of states a job actually persists,
since no update ever clears `qaResult`. -/
def qaMono : List AgentState → Bool
  | [] => true
  | st :: rest =>
    if st.qaResult.isSome then rest.all (fun s => s.qaResult.isSome)
    else qaMono rest

/-- Over any monotone polled sequence, the whole stream emits at most
one `qa_metrics` event and at most one `qa_issue` batch. -/
lemma runStream_counts_mono : ∀ (polls : List AgentState) (obs : StreamObs),
    qaMono polls = true →
    obs.qaMetricsSent = false → obs.qaIssuesSent = false →
    countQaMetrics (runStream obs polls) ≤ 1 ∧
    countQaIssueBatches (runStream obs polls) ≤ 1 := by
  intro polls
  induction polls with
  | nil =>
    intro obs _ _ _
    constructor <;> simp [runStream, countQaMetrics, countQaIssueBatches]
  | cons st rest ih =>
    intro obs hmono hm hi
    rcases hq : st.qaResult with _ | r
    · have hmono' : qaMono rest = true := by
        unfold qaMono at hmono
        rw [hq] at hmono
        simpa using hmono
      have hnone := pollStep_none obs st hq hm hi
      unfold runStream
      dsimp only
      by_cases hcl : (pollStep obs st).2.2 = true
      · rw [if_pos hcl]
        constructor
        · rw [show countQaMetrics [(pollStep obs st).2.1] =
            ((pollStep obs st).2.1.filter isMetricEv).length by simp [countQaMetrics]]
          rw [hnone.1]
          omega
        · rw [show countQaIssueBatches [(pollStep obs st).2.1] =
            (if (pollStep obs st).2.1.any isIssueEv then 1 else 0) by
              rw [countQaIssueBatches_cons]; simp [countQaIssueBatches]]
          rw [hnone.2.1]
          simp
      · rw [if_neg hcl]
        have hrest := ih (pollStep obs st).1 hmono' hnone.2.2.1 hnone.2.2.2
        constructor
        · rw [countQaMetrics_cons, hnone.1]
          omega
        · rw [countQaIssueBatches_cons, hnone.2.1]
          have := hrest.2
          simp
          omega
    · have hall : ∀ s ∈ st :: rest, s.qaResult.isSome := by
        intro s hs
        rcases List.mem_cons.mp hs with rfl | hs'
        · rw [hq]; rfl
        · have : rest.all (fun s => s.qaResult.isSome) = true := by
            unfold qaMono at hmono
            rw [hq] at hmono
            simpa using hmono
          exact List.all_eq_true.mp this s hs'
      have hb := runStream_counts_all_some (st :: rest) obs hall
      rw [hm, hi] at hb
      simpa using hb

/-- C9 amended: per JOB (any monotone polled state sequence), the
streaming boundary emits at most one `qa_issue` batch and at most one
`qa_metrics` event in total: a given ValidationResult's events are never
emitted twice however often the state is polled, but a new
ValidationResult produced by a retry is never emitted either — the
gating flags only reset when `qaResult` is absent from state, which
never happens again once a first result exists. -/
theorem stream_qa_events_at_most_once_per_job (polls : List AgentState)
    (h : qaMono polls = true) :
    countQaMetrics (runStream initialObs polls) ≤ 1 ∧
    countQaIssueBatches (runStream initialObs polls) ≤ 1 :=
  runStream_counts_mono polls initialObs h rfl rfl

/-- The failing first validation result (score 72). -/
def qaResult72 : QAResult :=
  { score := 72, passed := false,
    metrics := { structuralSimilarity := 72, visualSimilarity := 72,
                 layoutAccuracy := 72, colorAccuracy := 72 },
    issues := [exampleIssue] }

/-- The passing second validation result (score 95). -/
def qaResult95 : QAResult :=
  { score := 95, passed := true,
    metrics := { structuralSimilarity := 95, visualSimilarity := 95,
                 layoutAccuracy := 95, colorAccuracy := 95 },
    issues := [] }

/-- The persisted state right after the first QA attempt (status
`coding`, first result attached). -/
def pollAfterFirstQa : AgentState :=
  { initialState with status := Status.coding, currentNode := some NodeName.coder, scoutData := some exampleScout, architectPlan := some examplePlan, generatedCode := some exampleCode, qaResult := some qaResult72, retryCount := 1 }

/-- The terminal state with the retry's new validation result. -/
def pollTerminal : AgentState :=
  { pollAfterFirstQa with status := Status.complete, currentNode := none, qaResult := some qaResult95 }

/-- C9 counterexample: polling a job once while its first
ValidationResult (score 72) is current and once at the terminal state
carrying the retry's distinct ValidationResult (score 95) produces ONE
`qa_metrics` event and ONE `qa_issue` batch in total — the second
result's events are never emitted, refuting "once again for each new
ValidationResult produced by a retry". -/
theorem stream_retry_result_never_reemitted_counterexample :
    countQaMetrics (runStream initialObs [pollAfterFirstQa, pollTerminal]) = 1 ∧
    countQaIssueBatches (runStream initialObs [pollAfterFirstQa, pollTerminal]) = 1 ∧
    (pollAfterFirstQa.qaResult.map QAResult.score) = some 72 ∧
    (pollTerminal.qaResult.map QAResult.score) = some 95 := by
  refine ⟨by decide, by decide, by decide, by decide⟩

/-- Witness for `stream_qa_events_at_most_once_per_job` at the concrete
two-poll sequence. -/
theorem stream_qa_events_witness :
    countQaMetrics (runStream initialObs [pollAfterFirstQa, pollTerminal]) ≤ 1 ∧
    countQaIssueBatches (runStream initialObs [pollAfterFirstQa, pollTerminal]) ≤ 1 :=
  stream_qa_events_at_most_once_per_job [pollAfterFirstQa, pollTerminal] (by decide)
